import Mathlib

/-!
# Verification development for the imaginary image service

Shallow embedding of `controllers.go` and `dz_files.go`.

* Strings of the Go program are Lean `String`s; byte payloads that the program only
  moves around (`[]byte`) are `String`s as well, except the image buffers of
  `imageHandler`, whose byte length is observed and which are `List UInt8`.
* External collaborators (the Go standard library's sniffers and parsers, the image
  engine, the storage back ends, the local file system, the `vips` tool) are fields of
  an environment structure: each field gives the result of the call for its arguments.
* Effects are recorded as an explicit list of events, in program order.
-/

namespace Imaginary

/-- Equality of results is decidable when equality of errors and of values is. -/
instance exceptDecEq {ε α : Type} [DecidableEq ε] [DecidableEq α] :
    DecidableEq (Except ε α) := fun x y =>
  match x, y with
  | .ok a, .ok b =>
    if h : a = b then isTrue (by rw [h]) else isFalse (fun h2 => h (by injection h2))
  | .error a, .error b =>
    if h : a = b then isTrue (by rw [h]) else isFalse (fun h2 => h (by injection h2))
  | .ok _, .error _ => isFalse (fun h => by cases h)
  | .error _, .ok _ => isFalse (fun h => by cases h)

/-! ## Go standard library functions used by the code (Unix flavour) -/

/-- Go `strings.Contains`: `sub` occurs in `s` as a contiguous run. -/
def strContains (s sub : String) : Bool :=
  s.data.tails.any (fun t => sub.data.isPrefixOf t)

/-- Go slice expression `s[n:]` (every sliced prefix in the program is ASCII, so byte
and character offsets agree). -/
def sliceFrom (s : String) (n : Nat) : String := ⟨s.data.drop n⟩

/-- Go slice expression `s[:n]`. -/
def sliceTo (s : String) (n : Nat) : String := ⟨s.data.take n⟩

/-- Characters after the last `/` of a reversed path, still reversed. -/
def lastElemRev : List Char → List Char
  | [] => []
  | c :: cs => if c = '/' then [] else c :: lastElemRev cs

/-- The reversed path from its last `/` on, still reversed. -/
def dirPartRev : List Char → List Char
  | [] => []
  | c :: cs => if c = '/' then c :: cs else dirPartRev cs

/-- Go `filepath.Split`: the directory part keeps its trailing slash, the file part is
what follows the final slash. -/
def filepathSplit (path : String) : String × String :=
  (⟨(dirPartRev path.data.reverse).reverse⟩, ⟨(lastElemRev path.data.reverse).reverse⟩)

/-- Scan of `filepath.Ext` from the end of the path: `acc` holds the characters already
passed, in path order. -/
def extScan : List Char → List Char → List Char
  | [], _ => []
  | c :: cs, acc =>
    if c = '/' then []
    else if c = '.' then c :: acc
    else extScan cs (c :: acc)

/-- Go `filepath.Ext`: the suffix beginning at the final dot of the final element. -/
def filepathExt (path : String) : String := ⟨extScan path.data.reverse []⟩

/-- Pieces of a character sequence between occurrences of `sep`; an empty sequence
has one empty piece. -/
def splitChar (sep : Char) : List Char → List (List Char)
  | [] => [[]]
  | c :: cs =>
    match splitChar sep cs with
    | [] => [[]]
    | e :: es => if c = sep then [] :: e :: es else (c :: e) :: es

/-- Go `strings.Split(s, sep)` for a separator of one character. -/
def stringsSplit (s : String) (sep : Char) : List String :=
  (splitChar sep s.data).map String.mk

/-- Pieces joined with `sep` between them. -/
def joinChar (sep : Char) : List (List Char) → List Char
  | [] => []
  | [e] => e
  | e :: f :: es => e ++ sep :: joinChar sep (f :: es)

/-- One step of `filepath.Clean` on the stack of kept elements (most recent first):
empty and `.` elements are dropped, `..` removes the previous real element, and a
`..` that cannot be removed is kept only in a path that is not rooted. -/
def cleanStep (rooted : Bool) (stack : List (List Char)) (e : List Char) : List (List Char) :=
  if e = [] ∨ e = ['.'] then stack
  else if e = ['.', '.'] then
    match stack with
    | [] => if rooted then [] else [e]
    | top :: rest => if top = ['.', '.'] then e :: top :: rest else rest
  else e :: stack

/-- Elements joined with single slashes. -/
def joinSlash : List (List Char) → List Char
  | [] => []
  | [e] => e
  | e :: es => e ++ '/' :: joinSlash es

/-- Go `filepath.Clean`. -/
def filepathClean (path : String) : String :=
  match path.data with
  | [] => "."
  | c :: cs =>
    let rooted : Bool := c = '/'
    let kept := ((splitChar '/' (c :: cs)).foldl (cleanStep rooted) []).reverse
    let body := joinSlash kept
    if rooted then ⟨'/' :: body⟩
    else if body = [] then "." else ⟨body⟩

/-- Go `filepath.Join` of two elements: empty leading elements are skipped, the rest is
joined with `/` and cleaned. -/
def filepathJoin (a b : String) : String :=
  if a ≠ "" then filepathClean (a ++ "/" ++ b)
  else if b ≠ "" then filepathClean b
  else ""

/-! ## `controllers.go`: output format negotiation -/

/-- Loop of `determineAcceptMimeType` over the comma separated parts of the header;
`parseMediaType v` is the media type returned by Go's `mime.ParseMediaType(v)`. -/
def acceptLoop (parseMediaType : String → String) : List String → String
  | [] => ""
  | v :: rest =>
    let mediaType := parseMediaType v
    if mediaType = "image/webp" then "webp"
    else if mediaType = "image/png" then "png"
    else if mediaType = "image/jpeg" then "jpeg"
    else acceptLoop parseMediaType rest

/-- Function `determineAcceptMimeType` of `controllers.go`. -/
def determineAcceptMimeType (parseMediaType : String → String) (accept : String) : String :=
  acceptLoop parseMediaType (stringsSplit accept ',')

/-- The output format named by a recognized media type: `webp`, `png` or `jpeg`; `none`
for every other media type. -/
def formatOf (mediaType : String) : Option String :=
  if mediaType = "image/webp" then some "webp"
  else if mediaType = "image/png" then some "png"
  else if mediaType = "image/jpeg" then some "jpeg"
  else none

/-! ## `controllers.go`: `imageHandler` -/

/-- Status codes the controllers pass to `NewError`, kept symbolic. -/
inductive ErrCode where
  | statusBadRequest
  | badRequest
  | internalError
  | notAcceptable
  deriving DecidableEq

/-- Error values handed to `ErrorReply`. -/
inductive ReplyError where
  | errUnsupportedMedia
  | errOutputFormat
  | errMethodNotAllowed
  | newError (msg : String) (code : ErrCode)
  deriving DecidableEq

/-- What a controller does with the response writer besides setting headers. -/
inductive Reply where
  | errorReply (e : ReplyError)
  | writeHeader (status : Nat)
  | write (body : List UInt8)
  | nothing
  deriving DecidableEq

/-- A storage back end: the three implementations of `ImageDownUploader`. -/
inductive Provider where
  | azure
  | s3 (zone : String)
  | azureSAS (sasToken accountName : String)
  deriving DecidableEq

/-- Remote calls made by `imageHandler`, with their arguments. -/
inductive Call where
  | downloadImage (p : Provider) (container imageKey : String)
  | uploadBufferToS3 (body : List UInt8) (key bucket region : String)
  | uploadBufferToAzure (body : List UInt8) (key container : String)
  | uploadBufferToAzureSAS (body : List UInt8) (url : String)
  deriving DecidableEq

/-- The fields of `ImageOptions` that `imageHandler` reads or writes; `Rest` stands for
all the others. The Go field `Type` is `OutputType` here. -/
structure ImageOptions where
  OutputType : String
  Image : String
  WatermarkSVG : List UInt8
  Rest : String
  deriving DecidableEq

/-- Result of a transform: `Image` with its `Body` and `Mime`. -/
structure Image where
  Body : List UInt8
  Mime : String
  deriving DecidableEq

/-- What `imageHandler` reads from the request: the path, the raw query, the `Accept`
header, and the values the `parse...` helpers return for the request. -/
structure Request where
  path : String
  query : String
  accept : String
  s3Key : String
  s3OutputKey : String
  s3Bucket : String
  s3Region : String
  azureSASToken : String
  azureBlobKey : String
  azureBlobOutputKey : String
  azureContainer : String
  deriving DecidableEq

/-- Collaborators of `imageHandler` that live outside `controllers.go`. -/
structure Env where
  detectContentType : List UInt8 → String
  filetypeGet : List UInt8 → Except String String
  isSVGImage : List UInt8 → Bool
  isImageMimeTypeSupported : String → Bool
  buildParamsFromQuery : String → Except String ImageOptions
  imageType : String → Nat
  parseMediaType : String → String
  azureAccountName : String
  downloadImage : Provider → String → String → Except String (List UInt8)
  uploadBufferToS3 : List UInt8 → String → String → String → Option String
  uploadBufferToAzure : List UInt8 → String → String → Option String
  assebleBlobURL : String → String → String → String → Except String String
  uploadBufferToAzureSAS : List UInt8 → String → Option String

/-- The transform applied by the handler: `operation.Run`. -/
abbrev Operation := List UInt8 → ImageOptions → Except String Image

/-- Outcome of one run of `imageHandler`: the headers it set on the response (in
order), what it did with the response writer, and the remote calls it made. -/
structure Response where
  headers : List (String × String)
  reply : Reply
  calls : List Call
  deriving DecidableEq

/-- Lines 86-95 of `imageHandler`: the sniffed type, replaced by the magic number
table's answer when the sniff is `application/octet-stream` and the table has one. -/
def inferredType (env : Env) (buf : List UInt8) : String :=
  let mimeType := env.detectContentType buf
  if mimeType = "application/octet-stream" then
    match env.filetypeGet buf with
    | .ok kind => if kind ≠ "" then kind else mimeType
    | .error _ => mimeType
  else mimeType

/-- Lines 86-102 of `imageHandler`: the media type inferred for the body. -/
def detectMimeType (env : Env) (buf : List UInt8) : String :=
  let mimeType := inferredType env buf
  if strContains mimeType "text/plain" && decide (buf.length > 8) then
    if env.isSVGImage buf then "image/svg+xml" else mimeType
  else mimeType

/-- Lines 125-153 of `imageHandler`: the overlay download of the
`/watermarkimagesvg` path. The result is the failure of the download, or the options
to run with, together with the calls made. -/
def watermarkStage (env : Env) (r : Request) (opts : ImageOptions) :
    Except String ImageOptions × List Call :=
  if r.path = "/watermarkimagesvg" then
    if r.s3Key ≠ "" then
      let c := Call.downloadImage (.s3 r.s3Region) r.s3Bucket opts.Image
      match env.downloadImage (.s3 r.s3Region) r.s3Bucket opts.Image with
      | .error e => (.error e, [c])
      | .ok data => (.ok { opts with WatermarkSVG := data }, [c])
    else if r.azureSASToken ≠ "" ∧ r.azureBlobKey ≠ "" then
      let p := Provider.azureSAS r.azureSASToken env.azureAccountName
      let c := Call.downloadImage p r.azureContainer opts.Image
      match env.downloadImage p r.azureContainer opts.Image with
      | .error e => (.error e, [c])
      | .ok data => (.ok { opts with WatermarkSVG := data }, [c])
    else if r.azureBlobKey ≠ "" then
      let c := Call.downloadImage .azure r.azureContainer opts.Image
      match env.downloadImage .azure r.azureContainer opts.Image with
      | .error e => (.error e, [c])
      | .ok data => (.ok { opts with WatermarkSVG := data }, [c])
    else (.ok { opts with WatermarkSVG := [] }, [])
  else (.ok opts, [])

/-- Lines 85-153 of `imageHandler`: everything before the transform. The result is
either the response of an early return, or the `vary` value, the options to run with
and the calls made so far. -/
def prepare (env : Env) (r : Request) (buf : List UInt8) :
    Except Response (String × ImageOptions × List Call) :=
  if ¬ env.isImageMimeTypeSupported (detectMimeType env buf) then
    .error ⟨[], .errorReply .errUnsupportedMedia, []⟩
  else
    match env.buildParamsFromQuery r.query with
    | .error e =>
      .error ⟨[], .errorReply (.newError ("Error while processing parameters, " ++ e)
        .statusBadRequest), []⟩
    | .ok opts =>
      if opts.OutputType = "auto" then
        let opts := { opts with OutputType := determineAcceptMimeType env.parseMediaType r.accept }
        match watermarkStage env r opts with
        | (.error e, calls) =>
          .error ⟨[], .errorReply (.newError ("Error while downloading svg: " ++ e)
            .badRequest), calls⟩
        | (.ok opts, calls) => .ok ("Accept", opts, calls)
      else if opts.OutputType ≠ "" ∧ env.imageType opts.OutputType = 0 then
        .error ⟨[], .errorReply .errOutputFormat, []⟩
      else
        match watermarkStage env r opts with
        | (.error e, calls) =>
          .error ⟨[], .errorReply (.newError ("Error while downloading svg: " ++ e)
            .badRequest), calls⟩
        | (.ok opts, calls) => .ok ("", opts, calls)

/-- Headers set on the failure path of the transform (lines 157-160). -/
def varyHeader (vary : String) : List (String × String) :=
  if vary ≠ "" then [("Vary", vary)] else []

/-- Lines 165-247 of `imageHandler`: what is done with a transformed image. `calls`
are the remote calls made before. -/
def respond (env : Env) (r : Request) (vary : String) (image : Image) (calls : List Call) :
    Response :=
  if r.s3Key ≠ "" then
    let c := Call.uploadBufferToS3 image.Body r.s3OutputKey r.s3Bucket r.s3Region
    match env.uploadBufferToS3 image.Body r.s3OutputKey r.s3Bucket r.s3Region with
    | some e =>
      ⟨[], .errorReply (.newError ("Error while processing the s3 image: " ++ e)
        .internalError), calls ++ [c]⟩
    | none => ⟨[], .writeHeader 200, calls ++ [c]⟩
  else if r.azureSASToken = "" ∧ r.azureBlobKey ≠ "" then
    let c := Call.uploadBufferToAzure image.Body r.azureBlobOutputKey r.azureContainer
    match env.uploadBufferToAzure image.Body r.azureBlobOutputKey r.azureContainer with
    | some e =>
      ⟨[], .errorReply (.newError ("Error while processing the azure image: " ++ e)
        .internalError), calls ++ [c]⟩
    | none => ⟨[], .writeHeader 200, calls ++ [c]⟩
  else if r.azureSASToken ≠ "" then
    match env.assebleBlobURL r.azureSASToken env.azureAccountName r.azureContainer
        r.azureBlobOutputKey with
    | .error e =>
      ⟨[], .errorReply (.newError ("Error while assembling azure url: " ++ e)
        .internalError), calls⟩
    | .ok url =>
      let c := Call.uploadBufferToAzureSAS image.Body url
      match env.uploadBufferToAzureSAS image.Body url with
      | some e =>
        ⟨[], .errorReply (.newError ("Error while processing the azure sas image: " ++ e)
          .internalError), calls ++ [c]⟩
      | none => ⟨[], .writeHeader 200, calls ++ [c]⟩
  else
    ⟨[("Content-Length", toString image.Body.length), ("Content-Type", image.Mime)]
        ++ varyHeader vary,
      .write image.Body, calls⟩

/-- Function `imageHandler` of `controllers.go`. -/
def imageHandler (env : Env) (r : Request) (buf : List UInt8) (operation : Operation) :
    Response :=
  match prepare env r buf with
  | .error resp => resp
  | .ok (vary, opts, calls) =>
    match operation buf opts with
    | .error e =>
      ⟨varyHeader vary,
        .errorReply (.newError ("Error while processing the image: " ++ e) .statusBadRequest),
        calls⟩
    | .ok image => respond env r vary image calls

/-! ## `dz_files.go`: the tile job -/

/-- Structure `DZFilesConfig` of `dz_files.go`. -/
structure DZFilesConfig where
  Provider : String
  ImageKey : String
  Container : String
  TempContainer : String
  ContainerZone : String
  SASToken : String
  AccountName : String
  deriving DecidableEq

/-- Effects of a tile job, in program order, each with the error the call returned
(`none` for success). Payloads (`[]byte`) are strings: `[]byte(s)` is `s`. -/
inductive Event where
  | upload (p : Provider) (data fileKey container : String) (err : Option String)
  | download (p : Provider) (container imageKey : String) (err : Option String)
  | mkdir (path : String) (err : Option String)
  | removeAll (path : String)
  | writeFile (path data : String) (err : Option String)
  | vips (input output : String) (err : Option String)
  | readFile (path : String) (err : Option String)
  | print (msg : String)
  deriving DecidableEq

/-- One call of the walk function by `filepath.Walk`: the path (the root of the walk,
or a path below it), whether the entry is a directory, and the error the walk hands
over for it. -/
structure WalkEntry where
  path : String
  isDir : Bool
  err : Option String
  deriving DecidableEq

/-- Collaborators of the tile job outside `dz_files.go`: the storage back end
(`UploadImage`, `DownloadImage` of the provider), `rand.Uint64`, the local file system,
the `vips dzsave` subprocess, the sequence of entries `filepath.Walk` visits under a
root, and the choice `errgroup.Wait` makes among the errors of the failed tasks (the one
that was reported first). -/
structure World where
  uploadImage : Provider → String → String → String → Option String
  downloadImage : Provider → String → String → Except String String
  randUint64 : Nat
  mkdir : String → Option String
  writeFile : String → String → Option String
  vipsDzsave : String → String → Option String
  readFile : String → Except String String
  walk : String → List WalkEntry
  firstReported : List String → Nat

/-- Function `initDownloadUploader` of `dz_files.go`. -/
def initDownloadUploader (dzConf : DZFilesConfig) : Except String Provider :=
  if dzConf.Provider = "azure" then .ok .azure
  else if dzConf.Provider = "s3" then .ok (.s3 dzConf.ContainerZone)
  else if dzConf.Provider = "azureSAS" then .ok (.azureSAS dzConf.SASToken dzConf.AccountName)
  else .error "dzfiles: unknown provider"

/-- Function `generateDZFiles` of `dz_files.go`: the error it returns and its effects. -/
def generateDZFiles (w : World) (dirPath data imageName fileExtension : String) :
    Option String × List Event :=
  let imagePath := dirPath ++ "/" ++ imageName
  let tiffImagePath := imagePath ++ fileExtension
  match w.writeFile tiffImagePath data with
  | some e =>
    (some ("dzfiles: error saving tiff image to disk: " ++ e),
      [.writeFile tiffImagePath data (some e)])
  | none =>
    match w.vipsDzsave tiffImagePath imagePath with
    | some e =>
      (some ("dzfiles: error creating dz files: " ++ e),
        [.writeFile tiffImagePath data none, .vips tiffImagePath imagePath (some e)])
    | none =>
      (none, [.writeFile tiffImagePath data none, .vips tiffImagePath imagePath none])

/-- The upload task of the index file (lines 112-127): its error and its effects. -/
def indexTask (w : World) (p : Provider) (dzConf : DZFilesConfig)
    (localDirPath keyDir imageName : String) : Option String × List Event :=
  let path := filepathJoin localDirPath (imageName ++ ".dzi")
  match w.readFile path with
  | .error e => (some ("dzfiles: error reading index file: " ++ e), [.readFile path (some e)])
  | .ok data =>
    let key := filepathJoin keyDir (imageName ++ ".dzi")
    match w.uploadImage p data key dzConf.TempContainer with
    | some e =>
      (some ("dzfiles: error uploading index file: " ++ e),
        [.readFile path none, .upload p data key dzConf.TempContainer (some e)])
    | none => (none, [.readFile path none, .upload p data key dzConf.TempContainer none])

/-- The upload task of one tile file (lines 141-156): its error and its effects. -/
def fileTask (w : World) (p : Provider) (dzConf : DZFilesConfig)
    (localDirPath keyDir path : String) : Option String × List Event :=
  match w.readFile path with
  | .error e =>
    (some ("dzfiles: error reading file: " ++ path ++ ": " ++ e), [.readFile path (some e)])
  | .ok data =>
    let key := keyDir ++ sliceFrom path (localDirPath.length + 1)
    match w.uploadImage p data key dzConf.TempContainer with
    | some e =>
      (some ("dzfiles: error uploading file: " ++ path ++ ": " ++ e),
        [.readFile path none, .upload p data key dzConf.TempContainer (some e)])
    | none => (none, [.readFile path none, .upload p data key dzConf.TempContainer none])

/-- The walk of lines 129-163 over the entries `filepath.Walk` visits: the error that
stops the walk, if any, and the tasks launched before, in launch order. -/
def walkLoop (w : World) (p : Provider) (dzConf : DZFilesConfig)
    (localDirPath keyDir : String) :
    List WalkEntry → Option String × List (Option String × List Event)
  | [] => (none, [])
  | e :: es =>
    match e.err with
    | some err => (some err, [])
    | none =>
      if e.isDir then walkLoop w p dzConf localDirPath keyDir es
      else
        let rest := walkLoop w p dzConf localDirPath keyDir es
        (rest.1, fileTask w p dzConf localDirPath keyDir e.path :: rest.2)

/-- Result of `errgroup.Wait` once every task has returned: `nil` when no task failed,
otherwise the error that was reported first. -/
def groupWait (w : World) (errs : List String) : Option String :=
  match errs with
  | [] => none
  | e :: es => some ((e :: es).getD (w.firstReported (e :: es) % (es.length + 1)) e)

/-- Lines 111-179 of the job: fan-out of the uploads, wait, final marker. The tasks'
effects are listed in launch order, one admissible schedule of the task group; every
launched task is run to its end. -/
def uploadPhase (w : World) (p : Provider) (dzConf : DZFilesConfig)
    (localDirPath keyDir imageName : String) : Option String × List Event :=
  let index := indexTask w p dzConf localDirPath keyDir imageName
  let walked := walkLoop w p dzConf localDirPath keyDir
    (w.walk (filepathJoin localDirPath (imageName ++ "_files")))
  let tasks := index :: walked.2
  let events := (tasks.map Prod.snd).flatten
  match walked.1 with
  | some e => (some ("dzfiles: error walking dir path: " ++ e), events)
  | none =>
    match groupWait w (tasks.filterMap Prod.fst) with
    | some e => (some e, events)
    | none =>
      let markerKey := filepathJoin keyDir (imageName ++ ".txt")
      match w.uploadImage p "ok" markerKey dzConf.TempContainer with
      | some e =>
        (some ("dzfiles: error creating ok txt file: " ++ e),
          events ++ [.upload p "ok" markerKey dzConf.TempContainer (some e)])
      | none =>
        (none, events ++ [.upload p "ok" markerKey dzConf.TempContainer none,
          .print ("DZfiles upload for: " ++ filepathJoin keyDir imageName ++ "\n")])

/-- The staging directory of the job (line 96). -/
def localDirPathOf (w : World) : String := "/tmp/dzFiles-" ++ toString (w.randUint64 % 2 ^ 64)

/-- Lines 96-179 of the job, with the deferred `os.RemoveAll`: the error the function
literal returns and its effects. -/
def jobBody (w : World) (p : Provider) (dzConf : DZFilesConfig)
    (keyDir imageName fileExtension : String) : Option String × List Event :=
  let localDirPath := localDirPathOf w
  match w.mkdir localDirPath with
  | some e =>
    (some ("dzfiles: error creating tmp dir: " ++ e), [.mkdir localDirPath (some e)])
  | none =>
    match w.downloadImage p dzConf.Container dzConf.ImageKey with
    | .error e =>
      (some ("dzfiles: error downloading image: " ++ e),
        [.mkdir localDirPath none, .download p dzConf.Container dzConf.ImageKey (some e),
          .removeAll localDirPath])
    | .ok data =>
      let gen := generateDZFiles w localDirPath data imageName fileExtension
      match gen.1 with
      | some e =>
        (some ("dzfiles: error generating dz files: " ++ e),
          [.mkdir localDirPath none, .download p dzConf.Container dzConf.ImageKey none]
            ++ gen.2 ++ [.removeAll localDirPath])
      | none =>
        let up := uploadPhase w p dzConf localDirPath keyDir imageName
        (up.1,
          [.mkdir localDirPath none, .download p dzConf.Container dzConf.ImageKey none]
            ++ gen.2 ++ up.2 ++ [.removeAll localDirPath])

/-- The deferred function of lines 85-94: on an error the marker is overwritten with
the error text and the error is printed. The result of the marker write is dropped. -/
def reportError (w : World) (p : Provider) (dzConf : DZFilesConfig) (markerKey : String) :
    Option String → List Event
  | none => []
  | some err =>
    [.upload p err markerKey dzConf.TempContainer
        (w.uploadImage p err markerKey dzConf.TempContainer),
      .print ("dzfiles: error: " ++ err)]

/-- Outcome of `UploadDZFiles`: the error returned to the caller, whether the
background job was launched, and the effects of the call and of the job it launched. -/
structure DZResult where
  ret : Option String
  launched : Bool
  trace : List Event
  deriving DecidableEq

/-- Line 70: the directory prefix of the image key. -/
def keyDirOf (dzConf : DZFilesConfig) : String := (filepathSplit dzConf.ImageKey).1

/-- Line 71: the extension of the image's file name. -/
def fileExtensionOf (dzConf : DZFilesConfig) : String :=
  filepathExt (filepathSplit dzConf.ImageKey).2

/-- Lines 70-72: the image's file name without its extension. -/
def imageNameOf (dzConf : DZFilesConfig) : String :=
  sliceTo (filepathSplit dzConf.ImageKey).2
    ((filepathSplit dzConf.ImageKey).2.length - (fileExtensionOf dzConf).length)

/-- The key of the status marker (lines 75, 89, 171). -/
def markerKeyOf (dzConf : DZFilesConfig) : String :=
  filepathJoin (keyDirOf dzConf) (imageNameOf dzConf ++ ".txt")

/-- The key the index file is uploaded to (line 120). -/
def indexKeyOf (dzConf : DZFilesConfig) : String :=
  filepathJoin (keyDirOf dzConf) (imageNameOf dzConf ++ ".dzi")

/-- The key the tile file at local path `path` is uploaded to (line 149). -/
def tileKeyOf (w : World) (dzConf : DZFilesConfig) (path : String) : String :=
  keyDirOf dzConf ++ sliceFrom path ((localDirPathOf w).length + 1)

/-- Function `UploadDZFiles` of `dz_files.go`, together with the goroutine it starts. -/
def UploadDZFiles (w : World) (dzConf : DZFilesConfig) : DZResult :=
  match initDownloadUploader dzConf with
  | .error e => ⟨some ("dzfiles: error getting source: " ++ e), false, []⟩
  | .ok downUploader =>
    let keyDir := keyDirOf dzConf
    let fileExtension := fileExtensionOf dzConf
    let imageName := imageNameOf dzConf
    let markerKey := filepathJoin keyDir (imageName ++ ".txt")
    match w.uploadImage downUploader "pending" markerKey dzConf.TempContainer with
    | some e =>
      ⟨some ("dzfiles: error creating txt file: " ++ e), false,
        [.upload downUploader "pending" markerKey dzConf.TempContainer (some e)]⟩
    | none =>
      let body := jobBody w downUploader dzConf keyDir imageName fileExtension
      ⟨none, true,
        .upload downUploader "pending" markerKey dzConf.TempContainer none
          :: body.2 ++ reportError w downUploader dzConf markerKey body.1⟩

/-- The tasks of the fan-out when the walk of the tile tree meets no error: the task of
the index file, then one task per regular file visited, in the order of the walk. -/
def uploadTasks (w : World) (p : Provider) (dzConf : DZFilesConfig) :
    List (Option String × List Event) :=
  indexTask w p dzConf (localDirPathOf w) (keyDirOf dzConf) (imageNameOf dzConf) ::
    ((w.walk (filepathJoin (localDirPathOf w) (imageNameOf dzConf ++ "_files"))).filter
      (fun e => !e.isDir)).map
      (fun e => fileTask w p dzConf (localDirPathOf w) (keyDirOf dzConf) e.path)

/-- Whether directory `path` exists after the events, given whether it did before. -/
def dirExistsAfter (path : String) : Bool → List Event → Bool
  | b, [] => b
  | b, .mkdir q none :: es => dirExistsAfter path (if q = path then true else b) es
  | b, .removeAll q :: es => dirExistsAfter path (if q = path then false else b) es
  | b, _ :: es => dirExistsAfter path b es

/-! ## `controllers.go`: `DZSave` -/

/-- The request body structure decoded by `DZSave`. -/
structure DZRequest where
  Provider : String
  ImageKey : String
  Container : String
  TempContainer : String
  ContainerZone : String
  SASToken : String
  AccountName : String
  deriving DecidableEq

/-- Outcome of `DZSave`: what it did with the response writer, the configuration it
passed to `UploadDZFiles` (when it got that far) and the effects of that call. -/
structure DZSaveResult where
  reply : Reply
  config : Option DZFilesConfig
  trace : List Event
  deriving DecidableEq

/-- Lines 337-353 of `DZSave`: the configuration built from a decoded body. -/
def dzConfigOf (req : DZRequest) : DZFilesConfig :=
  let tempContainer := if req.TempContainer = "" then req.Container else req.TempContainer
  let provider := if req.Provider = "" then "azure" else req.Provider
  { Provider := provider
    ImageKey := req.ImageKey
    Container := req.Container
    TempContainer := tempContainer
    ContainerZone := req.ContainerZone
    SASToken := req.SASToken
    AccountName := req.AccountName }

/-- Function `DZSave` of `controllers.go`. `method` is `r.Method`, `body` the result of
`ioutil.ReadAll(r.Body)`, `jsonUnmarshal` the decoding of `json.Unmarshal` into the
request structure. -/
def DZSave (w : World) (jsonUnmarshal : String → Except String DZRequest)
    (method : String) (body : Except String String) : DZSaveResult :=
  if method ≠ "POST" then ⟨.errorReply .errMethodNotAllowed, none, []⟩
  else
    match body with
    | .error e =>
      ⟨.errorReply (.newError ("controllers: reading body failed: " ++ e) .notAcceptable),
        none, []⟩
    | .ok data =>
      match jsonUnmarshal data with
      | .error e =>
        ⟨.errorReply (.newError ("controllers: error unmarshalling data :" ++ e)
          .notAcceptable), none, []⟩
      | .ok req =>
        let res := UploadDZFiles w (dzConfigOf req)
        match res.ret with
        | some e =>
          ⟨.errorReply (.newError ("controllers: uploading dz files error: " ++ e)
            .internalError), some (dzConfigOf req), res.trace⟩
        | none => ⟨.nothing, some (dzConfigOf req), res.trace⟩

/-! ## Concrete inputs -/

/-- A world in which nothing fails: every read gives `data`, the download gives `img`,
and the walk visits the tile tree of one tile. -/
def calmWorld : World where
  uploadImage := fun _ _ _ _ => none
  downloadImage := fun _ _ _ => .ok "img"
  randUint64 := 7
  mkdir := fun _ => none
  writeFile := fun _ _ => none
  vipsDzsave := fun _ _ => none
  readFile := fun _ => .ok "data"
  walk := fun root =>
    [⟨root, true, none⟩, ⟨root ++ "/0", true, none⟩, ⟨root ++ "/0/0_0.jpeg", false, none⟩]
  firstReported := fun _ => 0

/-- The decoder that reads every body as the job for `photo.tiff` in container `src`. -/
def photoBody : String → Except String DZRequest :=
  fun _ => .ok ⟨"", "photo.tiff", "src", "", "", "", ""⟩

/-- An environment for examples: the sniffer knows the PNG signature, an XML prolog
(`<?`) and takes other text starting with `<` for plain text; the magic number table
knows nothing; every payload starting with `<` counts as SVG; the store into bucket
`down` fails and every other remote call succeeds; media types are parsed as written. -/
def demoEnv : Env where
  detectContentType := fun buf =>
    match buf with
    | 137 :: _ => "image/png"
    | 60 :: 63 :: _ => "text/xml; charset=utf-8"
    | 60 :: _ => "text/plain; charset=utf-8"
    | _ => "application/octet-stream"
  filetypeGet := fun _ => .ok ""
  isSVGImage := fun buf => buf.head? = some 60
  isImageMimeTypeSupported := fun m =>
    m = "image/png" ∨ m = "image/jpeg" ∨ m = "image/webp" ∨ m = "image/svg+xml"
  buildParamsFromQuery := fun q =>
    if q = "type=auto" then .ok ⟨"auto", "", [], ""⟩
    else if q = "type=png" then .ok ⟨"png", "", [], ""⟩
    else if q = "" then .ok ⟨"", "", [], ""⟩
    else .error "invalid query"
  imageType := fun t => if t = "jpeg" then 1 else if t = "webp" then 2 else if t = "png" then 3 else 0
  parseMediaType := fun v => v
  azureAccountName := "acct"
  downloadImage := fun _ _ _ => .ok []
  uploadBufferToS3 := fun _ _ bucket _ => if bucket = "down" then some "timeout" else none
  uploadBufferToAzure := fun _ _ _ => none
  assebleBlobURL := fun sas account container key =>
    .ok ("https://" ++ account ++ ".blob.core.windows.net/" ++ container ++ "/" ++ key
      ++ "?" ++ sas)
  uploadBufferToAzureSAS := fun _ _ => none

/-- A transform that succeeds: it returns the input bytes under the requested format,
`jpeg` when none is requested. -/
def okOp : Operation := fun buf opts =>
  .ok ⟨buf, "image/" ++ (if opts.OutputType = "" then "jpeg" else opts.OutputType)⟩

/-- A transform that fails. -/
def failOp : Operation := fun _ _ => .error "unsupported image format"

/-- Nine bytes that begin with the PNG signature. -/
def pngBuf : List UInt8 := [137, 80, 78, 71, 13, 10, 26, 10, 0]

/-- The bytes of `<svg xmlns="http://www.w3.org/2000/svg"></svg>`. -/
def svgBuf : List UInt8 :=
  [60, 115, 118, 103, 32, 120, 109, 108, 110, 115, 61, 34, 104, 116, 116, 112, 58, 47, 47,
   119, 119, 119, 46, 119, 51, 46, 111, 114, 103, 47, 50, 48, 48, 48, 47, 115, 118, 103, 34,
   62, 60, 47, 115, 118, 103, 62]

/-- The bytes of `<?xml version="1.0"?><svg xmlns="http://www.w3.org/2000/svg"></svg>`. -/
def xmlSvgBuf : List UInt8 :=
  [60, 63, 120, 109, 108, 32, 118, 101, 114, 115, 105, 111, 110, 61, 34, 49, 46, 48, 34, 63,
   62, 60, 115, 118, 103, 32, 120, 109, 108, 110, 115, 61, 34, 104, 116, 116, 112, 58, 47,
   47, 119, 119, 119, 46, 119, 51, 46, 111, 114, 103, 47, 50, 48, 48, 48, 47, 115, 118, 103,
   34, 62, 60, 47, 115, 118, 103, 62]

/-- A resize request with `type=auto` and `Accept: image/webp,*/*`, with the given
bucket key and bucket and no Azure parameter. -/
def autoReq (s3Key s3Bucket : String) : Request :=
  ⟨"/resize", "type=auto", "image/webp,*/*", s3Key, "out.webp", s3Bucket, "eu", "", "", "", ""⟩

/-- A resize request with `type=png`, with the given bucket key and bucket and the
given Azure SAS token and blob key. -/
def pngReq (s3Key s3Bucket sasToken blobKey : String) : Request :=
  ⟨"/resize", "type=png", "", s3Key, "out.png", s3Bucket, "eu", sasToken, blobKey, "out.png",
    "pics"⟩

/-- The job configuration for `photo.tiff` in container `src` on the primary back end. -/
def photoConf : DZFilesConfig := ⟨"azure", "photo.tiff", "src", "src", "", "", ""⟩

/-- The world of `calmWorld` in which the tiling tool fails. -/
def toolFailsWorld : World := { calmWorld with vipsDzsave := fun _ _ => some "exit status 1" }

/-- The world of `calmWorld` in which the upload of the tile file fails. -/
def tileUploadFailsWorld : World :=
  { calmWorld with
    uploadImage := fun _ _ key _ =>
      if key = "photo_files/0/0_0.jpeg" then some "connection reset" else none }

/-- The world of `calmWorld` in which the tile directory cannot be walked. -/
def walkFailsWorld : World :=
  { calmWorld with walk := fun root => [⟨root, false, some "no such file or directory"⟩] }

/-- The world of `tileUploadFailsWorld` in which, after the tile file, the walk meets a
directory it cannot read. -/
def walkBreaksWorld : World :=
  { tileUploadFailsWorld with
    walk := fun root =>
      [⟨root, true, none⟩, ⟨root ++ "/0", true, none⟩,
        ⟨root ++ "/0/0_0.jpeg", false, none⟩,
        ⟨root ++ "/1", true, some "permission denied"⟩] }

/-! ## Facts about the embedded library functions -/

theorem splitChar_ne_nil (sep : Char) (l : List Char) : splitChar sep l ≠ [] := by
  cases l with
  | nil => simp [splitChar]
  | cons c cs =>
    simp only [splitChar]
    split
    · simp
    · split <;> simp

/-- Splitting loses nothing: joining the pieces with the separator gives the input. -/
theorem joinChar_splitChar (sep : Char) (l : List Char) :
    joinChar sep (splitChar sep l) = l := by
  induction l with
  | nil => simp [splitChar, joinChar]
  | cons c cs ih =>
    simp only [splitChar]
    cases h : splitChar sep cs with
    | nil => exact absurd h (splitChar_ne_nil sep cs)
    | cons e es =>
      rw [h] at ih
      by_cases hc : c = sep
      · simp only [hc, if_true]
        simp only [joinChar, List.nil_append, ih]
      · simp only [hc, if_false]
        cases es with
        | nil => simp only [joinChar] at ih ⊢; rw [ih]
        | cons f fs => simp only [joinChar, List.cons_append] at ih ⊢; rw [ih]

/-- No piece of a split contains the separator. -/
theorem splitChar_no_sep (sep : Char) (l : List Char) :
    ∀ e ∈ splitChar sep l, sep ∉ e := by
  induction l with
  | nil => simp [splitChar]
  | cons c cs ih =>
    simp only [splitChar]
    cases h : splitChar sep cs with
    | nil => exact absurd h (splitChar_ne_nil sep cs)
    | cons e es =>
      rw [h] at ih
      by_cases hc : c = sep
      · simp only [hc, if_true]
        intro x hx
        rcases List.mem_cons.1 hx with rfl | hx
        · simp
        · exact ih x hx
      · simp only [hc, if_false]
        intro x hx
        rcases List.mem_cons.1 hx with rfl | hx
        · intro hmem
          rcases List.mem_cons.1 hmem with h1 | h1
          · exact hc h1.symm
          · exact ih e (List.mem_cons_self _ _) h1
        · exact ih x (List.mem_cons_of_mem _ hx)

/-- The loop returns the format of the first part whose media type is recognized, and
the empty string when no part is. -/
theorem acceptLoop_first (parse : String → String) (parts : List String) :
    (∃ pre v post fmt, parts = pre ++ v :: post ∧
        (∀ u ∈ pre, formatOf (parse u) = none) ∧
        formatOf (parse v) = some fmt ∧ acceptLoop parse parts = fmt) ∨
      ((∀ u ∈ parts, formatOf (parse u) = none) ∧ acceptLoop parse parts = "") := by
  induction parts with
  | nil => right; simp [acceptLoop]
  | cons v rest ih =>
    by_cases h1 : parse v = "image/webp"
    · left
      exact ⟨[], v, rest, "webp", rfl, by simp, by simp [formatOf, h1], by simp [acceptLoop, h1]⟩
    · by_cases h2 : parse v = "image/png"
      · left
        exact ⟨[], v, rest, "png", rfl, by simp, by simp [formatOf, h2],
          by simp [acceptLoop, h2]⟩
      · by_cases h3 : parse v = "image/jpeg"
        · left
          exact ⟨[], v, rest, "jpeg", rfl, by simp, by simp [formatOf, h3],
            by simp [acceptLoop, h3]⟩
        · have hv : formatOf (parse v) = none := by simp [formatOf, h1, h2, h3]
          have hstep : acceptLoop parse (v :: rest) = acceptLoop parse rest := by
            simp [acceptLoop, h1, h2, h3]
          rcases ih with ⟨pre, x, post, fmt, hp, hpre, hx, hres⟩ | ⟨hall, hres⟩
          · left
            refine ⟨v :: pre, x, post, fmt, by simp [hp], ?_, hx, by rw [hstep, hres]⟩
            intro u hu
            rcases List.mem_cons.1 hu with rfl | hu
            · exact hv
            · exact hpre u hu
          · right
            refine ⟨?_, by rw [hstep, hres]⟩
            intro u hu
            rcases List.mem_cons.1 hu with rfl | hu
            · exact hv
            · exact hall u hu

/-- A piece without the separator is its own split. -/
theorem splitChar_of_not_mem (sep : Char) (e : List Char) (h : sep ∉ e) :
    splitChar sep e = [e] := by
  induction e with
  | nil => rfl
  | cons c cs ih =>
    have hc : c ≠ sep := fun hc => h (by rw [hc]; exact List.mem_cons_self _ _)
    have hcs : sep ∉ cs := fun hm => h (List.mem_cons_of_mem _ hm)
    simp only [splitChar, ih hcs, hc, if_false]

/-- Splitting a piece without the separator, followed by the separator and a rest,
gives the piece and the split of the rest. -/
theorem splitChar_append_sep (sep : Char) (e rest : List Char) (h : sep ∉ e) :
    splitChar sep (e ++ sep :: rest) = e :: splitChar sep rest := by
  induction e with
  | nil =>
    simp only [List.nil_append, splitChar]
    cases hr : splitChar sep rest with
    | nil => exact absurd hr (splitChar_ne_nil sep rest)
    | cons x xs => simp
  | cons c cs ih =>
    have hc : c ≠ sep := fun hc => h (by rw [hc]; exact List.mem_cons_self _ _)
    have hcs : sep ∉ cs := fun hm => h (List.mem_cons_of_mem _ hm)
    have ih2 := ih hcs
    show splitChar sep (c :: (cs ++ sep :: rest)) = (c :: cs) :: splitChar sep rest
    simp only [splitChar, ih2, hc, if_false]

/-- The split is the only way to write a text as pieces without the separator joined
by the separator. -/
theorem splitChar_joinChar (sep : Char) (pieces : List (List Char)) (hne : pieces ≠ [])
    (hfree : ∀ e ∈ pieces, sep ∉ e) : splitChar sep (joinChar sep pieces) = pieces := by
  induction pieces with
  | nil => exact absurd rfl hne
  | cons e es ih =>
    have he : sep ∉ e := hfree e (List.mem_cons_self _ _)
    cases es with
    | nil => simpa [joinChar] using splitChar_of_not_mem sep e he
    | cons f fs =>
      have ih2 := ih (by simp) (fun x hx => hfree x (List.mem_cons_of_mem _ hx))
      simp only [joinChar]
      rw [splitChar_append_sep sep e _ he, ih2]

/-- The entries `strings.Split` gives for a header are the entries of any way of
writing the header as comma-free entries joined by commas. -/
theorem stringsSplit_unique (s : String) (sep : Char) (parts : List String)
    (hne : parts ≠ []) (hfree : ∀ u ∈ parts, sep ∉ u.data)
    (hjoin : joinChar sep (parts.map String.data) = s.data) :
    stringsSplit s sep = parts := by
  unfold stringsSplit
  rw [← hjoin, splitChar_joinChar sep (parts.map String.data) (by simpa using hne)]
  · rw [List.map_map]
    have hid : (String.mk ∘ String.data) = id := by
      funext u
      rfl
    rw [hid, List.map_id]
  · intro e he
    rw [List.mem_map] at he
    obtain ⟨u, hu, rfl⟩ := he
    exact hfree u hu

/-! ## Claims -/

/-- C1: for every Accept header value, the entries `determineAcceptMimeType` ranks are
the comma separated entries of the header text itself (they are comma-free, there is
at least one, and joined by commas they give the header back), and for every way of
writing the header as a non-empty list of comma-free entries joined by commas the
function returns the format (webp, png or jpeg) of the first entry whose media type, as
parsed by `mime.ParseMediaType`, is one of `image/webp`, `image/png`, `image/jpeg`
(rank is position in the header), and the empty string, the engine default, when no
entry has one of those three media types. -/
theorem determineAcceptMimeType_first_recognized (parse : String → String)
    (accept : String) :
    (stringsSplit accept ',' ≠ [] ∧
      joinChar ',' ((stringsSplit accept ',').map String.data) = accept.data ∧
      ∀ u ∈ stringsSplit accept ',', ',' ∉ u.data) ∧
    ∀ parts : List String, parts ≠ [] → (∀ u ∈ parts, ',' ∉ u.data) →
      joinChar ',' (parts.map String.data) = accept.data →
      ((∃ pre v post fmt, parts = pre ++ v :: post ∧
          (∀ u ∈ pre, formatOf (parse u) = none) ∧
          formatOf (parse v) = some fmt ∧ determineAcceptMimeType parse accept = fmt) ∨
        ((∀ u ∈ parts, formatOf (parse u) = none) ∧
          determineAcceptMimeType parse accept = "")) := by
  refine ⟨⟨?_, ?_, ?_⟩, ?_⟩
  · unfold stringsSplit
    intro h
    exact splitChar_ne_nil ',' accept.data (List.map_eq_nil_iff.1 h)
  · unfold stringsSplit
    rw [List.map_map]
    have hid : (String.data ∘ String.mk) = id := by
      funext u
      rfl
    rw [hid, List.map_id]
    exact joinChar_splitChar ',' accept.data
  · unfold stringsSplit
    intro u hu
    rw [List.mem_map] at hu
    obtain ⟨e, he, rfl⟩ := hu
    exact splitChar_no_sep ',' accept.data e he
  · intro parts hne hfree hjoin
    have hsplit := stringsSplit_unique accept ',' parts hne hfree hjoin
    have h := acceptLoop_first parse parts
    unfold determineAcceptMimeType
    rw [hsplit]
    exact h

/-- Witness of C1: the header `text/html,image/png,image/webp` is the three entries
`text/html`, `image/png`, `image/webp` joined by commas, and with media types parsed
as written the negotiated format is `png`, the first recognized entry. -/
theorem determineAcceptMimeType_first_recognized_witness :
    ((∃ pre v post fmt, ["text/html", "image/png", "image/webp"] = pre ++ v :: post ∧
          (∀ u ∈ pre, formatOf ((fun x : String => x) u) = none) ∧
          formatOf ((fun x : String => x) v) = some fmt ∧
          determineAcceptMimeType (fun x => x) "text/html,image/png,image/webp" = fmt) ∨
        ((∀ u ∈ ["text/html", "image/png", "image/webp"],
            formatOf ((fun x : String => x) u) = none) ∧
          determineAcceptMimeType (fun x => x) "text/html,image/png,image/webp" = "")) ∧
      determineAcceptMimeType (fun x => x) "text/html,image/png,image/webp" = "png" ∧
      determineAcceptMimeType (fun x => x) "text/html,*/*" = "" :=
  ⟨(determineAcceptMimeType_first_recognized (fun x => x)
      "text/html,image/png,image/webp").2 ["text/html", "image/png", "image/webp"]
      (by decide) (by decide) (by decide),
    by decide, by decide⟩

/-- C7: for every submission body that `DZSave` accepts (method POST, body read and
decoded), the configuration passed to `UploadDZFiles` has `TempContainer` equal to the
request's container when `tempContainer` is absent or empty and `Provider` equal to
`azure` when `provider` is absent or empty; a non-empty `tempContainer` or `provider`
and every other field are passed through unchanged. -/
theorem DZSave_config_defaults (w : World) (jsonUnmarshal : String → Except String DZRequest)
    (data : String) (req : DZRequest) (hbody : jsonUnmarshal data = .ok req) :
    ∃ c, (DZSave w jsonUnmarshal "POST" (.ok data)).config = some c ∧
      (DZSave w jsonUnmarshal "POST" (.ok data)).trace = (UploadDZFiles w c).trace ∧
      (req.TempContainer = "" → c.TempContainer = req.Container) ∧
      (req.TempContainer ≠ "" → c.TempContainer = req.TempContainer) ∧
      (req.Provider = "" → c.Provider = "azure") ∧
      (req.Provider ≠ "" → c.Provider = req.Provider) ∧
      c.ImageKey = req.ImageKey ∧ c.Container = req.Container ∧
      c.ContainerZone = req.ContainerZone ∧ c.SASToken = req.SASToken ∧
      c.AccountName = req.AccountName := by
  refine ⟨dzConfigOf req, ?_, ?_, ?_, ?_, ?_, ?_, rfl, rfl, rfl, rfl, rfl⟩
  · simp only [DZSave, hbody]
    cases h : (UploadDZFiles w (dzConfigOf req)).ret <;> simp
  · simp only [DZSave, hbody]
    cases h : (UploadDZFiles w (dzConfigOf req)).ret <;> simp
  · intro h; simp [dzConfigOf, h]
  · intro h; simp [dzConfigOf, h]
  · intro h; simp [dzConfigOf, h]
  · intro h; simp [dzConfigOf, h]

/-- Witness of C7: the body for `photo.tiff` in container `src`, with no
`tempContainer` and no `provider`, is passed on with `TempContainer = src` and
`Provider = azure`. -/
theorem DZSave_config_defaults_witness :
    ∃ c, (DZSave calmWorld photoBody "POST" (.ok "")).config = some c ∧
      c.TempContainer = "src" ∧ c.Provider = "azure" ∧ c.ImageKey = "photo.tiff" := by
  obtain ⟨c, hc, _, ht, _, hp, _, hk, _⟩ :=
    DZSave_config_defaults calmWorld photoBody "" ⟨"", "photo.tiff", "src", "", "", "", ""⟩ rfl
  exact ⟨c, hc, ht rfl, hp rfl, hk⟩

/-- C8: if constructing the storage provider fails (the provider identifier is none of
`azure`, `s3`, `azureSAS`) or the write of the `pending` marker fails, `UploadDZFiles`
returns an error to its caller and the background job is not launched: the effects are
none at all, or only the failed marker write (no download, no tiling, no further
storage write), and `DZSave` answers the caller with an error reply carrying that
error. -/
theorem UploadDZFiles_sync_failure (w : World) (dzConf : DZFilesConfig)
    (hfail : (dzConf.Provider ≠ "azure" ∧ dzConf.Provider ≠ "s3" ∧
        dzConf.Provider ≠ "azureSAS") ∨
      ∃ p e, initDownloadUploader dzConf = .ok p ∧
        w.uploadImage p "pending" (markerKeyOf dzConf) dzConf.TempContainer = some e) :
    ∃ err, (UploadDZFiles w dzConf).ret = some err ∧
      (UploadDZFiles w dzConf).launched = false ∧
      ((UploadDZFiles w dzConf).trace = [] ∨
        ∃ p e, initDownloadUploader dzConf = .ok p ∧ (UploadDZFiles w dzConf).trace =
          [Event.upload p "pending" (markerKeyOf dzConf) dzConf.TempContainer (some e)]) ∧
      ∀ (jsonUnmarshal : String → Except String DZRequest) (data : String) (req : DZRequest),
        jsonUnmarshal data = .ok req → dzConfigOf req = dzConf →
        (DZSave w jsonUnmarshal "POST" (.ok data)).reply =
            .errorReply (.newError ("controllers: uploading dz files error: " ++ err)
              .internalError) ∧
          (DZSave w jsonUnmarshal "POST" (.ok data)).trace = (UploadDZFiles w dzConf).trace := by
  have key : ∀ err, (UploadDZFiles w dzConf).ret = some err →
      ∀ (jsonUnmarshal : String → Except String DZRequest) (data : String) (req : DZRequest),
        jsonUnmarshal data = .ok req → dzConfigOf req = dzConf →
        (DZSave w jsonUnmarshal "POST" (.ok data)).reply =
            .errorReply (.newError ("controllers: uploading dz files error: " ++ err)
              .internalError) ∧
          (DZSave w jsonUnmarshal "POST" (.ok data)).trace = (UploadDZFiles w dzConf).trace := by
    intro err herr jsonUnmarshal data req hbody hconf
    simp only [DZSave, hbody, hconf, herr]
    simp
  rcases hfail with ⟨h1, h2, h3⟩ | ⟨p, e, hp, he⟩
  · have hinit : initDownloadUploader dzConf = .error "dzfiles: unknown provider" := by
      simp [initDownloadUploader, h1, h2, h3]
    have hret : (UploadDZFiles w dzConf).ret =
        some ("dzfiles: error getting source: " ++ "dzfiles: unknown provider") := by
      simp [UploadDZFiles, hinit]
    refine ⟨_, hret, by simp [UploadDZFiles, hinit], Or.inl (by simp [UploadDZFiles, hinit]),
      key _ hret⟩
  · rw [markerKeyOf] at he
    have hret : (UploadDZFiles w dzConf).ret =
        some ("dzfiles: error creating txt file: " ++ e) := by
      simp [UploadDZFiles, hp, he]
    refine ⟨_, hret, by simp [UploadDZFiles, hp, he], Or.inr ⟨p, e, hp, ?_⟩, key _ hret⟩
    simp [UploadDZFiles, hp, he, markerKeyOf]

/-- Witness of C8: the provider identifier `gcs` is unknown, so the call fails at once
with no effect. -/
theorem UploadDZFiles_sync_failure_witness :
    ∃ err, (UploadDZFiles calmWorld ⟨"gcs", "photo.tiff", "src", "src", "", "", ""⟩).ret
        = some err ∧
      (UploadDZFiles calmWorld ⟨"gcs", "photo.tiff", "src", "src", "", "", ""⟩).launched
        = false := by
  obtain ⟨err, h1, h2, _⟩ :=
    UploadDZFiles_sync_failure calmWorld ⟨"gcs", "photo.tiff", "src", "src", "", "", ""⟩
      (Or.inl (by decide))
  exact ⟨err, h1, h2⟩

/-- An early return of `imageHandler` sets no header, and it is the reply
`ErrUnsupportedMedia` only when the inferred media type is not supported. -/
theorem prepare_error (env : Env) (r : Request) (buf : List UInt8) (resp : Response)
    (h : prepare env r buf = .error resp) :
    resp.headers = [] ∧
      (env.isImageMimeTypeSupported (detectMimeType env buf) = true →
        resp.reply ≠ .errorReply .errUnsupportedMedia) := by
  unfold prepare at h
  split at h
  · injection h with h
    subst h
    constructor
    · rfl
    · intro hs; simp_all
  · split at h
    · injection h with h; subst h; simp
    · split at h
      · dsimp only at h
        split at h
        · injection h with h; subst h; simp
        · cases h
      · split at h
        · injection h with h; subst h; simp
        · split at h
          · injection h with h; subst h; simp
          · cases h

/-- When `imageHandler` gets as far as the transform, the parameters were decoded and
`vary` is `Accept` exactly when the decoded output type is `auto`; it is empty
otherwise. -/
theorem prepare_ok (env : Env) (r : Request) (buf : List UInt8) (vary : String)
    (opts : ImageOptions) (calls : List Call)
    (h : prepare env r buf = .ok (vary, opts, calls)) :
    ∃ o, env.buildParamsFromQuery r.query = .ok o ∧
      ((o.OutputType = "auto" ∧ vary = "Accept") ∨ (o.OutputType ≠ "auto" ∧ vary = "")) := by
  unfold prepare at h
  split at h
  · cases h
  · split at h
    · cases h
    · rename_i o ho
      refine ⟨o, ho, ?_⟩
      split at h
      · rename_i hauto
        dsimp only at h
        split at h
        · cases h
        · injection h with h
          injection h with h1 h2
          exact Or.inl ⟨hauto, h1.symm⟩
      · rename_i hauto
        split at h
        · cases h
        · split at h
          · cases h
          · injection h with h
            injection h with h1 h2
            exact Or.inr ⟨hauto, h1.symm⟩

/-- The handler answers `ErrUnsupportedMedia` only at the media type check. -/
theorem imageHandler_supported_not_rejected (env : Env) (r : Request) (buf : List UInt8)
    (operation : Operation)
    (h : env.isImageMimeTypeSupported (detectMimeType env buf) = true) :
    (imageHandler env r buf operation).reply ≠ .errorReply .errUnsupportedMedia := by
  unfold imageHandler
  split
  · rename_i resp hresp
    exact (prepare_error env r buf resp hresp).2 h
  · split
    · simp
    · unfold respond
      repeat' split
      all_goals simp

/-- What `imageHandler` answers once the preparation stage and the transform have
succeeded. -/
theorem imageHandler_of_run_ok (env : Env) (r : Request) (buf : List UInt8)
    (operation : Operation) (vary : String) (opts : ImageOptions) (calls : List Call)
    (image : Image) (hprep : prepare env r buf = .ok (vary, opts, calls))
    (hrun : operation buf opts = .ok image) :
    imageHandler env r buf operation = respond env r vary image calls := by
  simp [imageHandler, hprep, hrun]

/-- What `imageHandler` answers once the preparation stage has succeeded and the
transform has failed. -/
theorem imageHandler_of_run_error (env : Env) (r : Request) (buf : List UInt8)
    (operation : Operation) (vary : String) (opts : ImageOptions) (calls : List Call)
    (e : String) (hprep : prepare env r buf = .ok (vary, opts, calls))
    (hrun : operation buf opts = .error e) :
    imageHandler env r buf operation =
      ⟨varyHeader vary,
        .errorReply (.newError ("Error while processing the image: " ++ e) .statusBadRequest),
        calls⟩ := by
  simp [imageHandler, hprep, hrun]

/-- Counterexample to C2 as stated: the request asks for `type=auto`, the transform
succeeds and a bucket key is present; the reply is a bare 200 without any header, so
without `Vary: Accept`. -/
theorem vary_absent_on_bucket_route :
    demoEnv.buildParamsFromQuery (autoReq "in.png" "pics").query = .ok ⟨"auto", "", [], ""⟩ ∧
      okOp pngBuf ⟨"webp", "", [], ""⟩ = .ok ⟨pngBuf, "image/webp"⟩ ∧
      imageHandler demoEnv (autoReq "in.png" "pics") pngBuf okOp =
        ⟨[], .writeHeader 200, [Call.uploadBufferToS3 pngBuf "out.webp" "pics" "eu"]⟩ := by
  decide

/-- C2 (amended): for a request whose output type is `auto` and that gets as far as the
transform, the response carries `Vary: Accept` when the transform fails, and when it
succeeds and no bucket key and no Azure parameter is present (the inline reply); when
the transform succeeds and a storage destination is present, `imageHandler` sets no
header at all. When the output type is not `auto`, `imageHandler` sets no `Vary`
header. -/
theorem imageHandler_vary_header (env : Env) (r : Request) (buf : List UInt8)
    (operation : Operation) :
    (∀ o vary opts calls, env.buildParamsFromQuery r.query = .ok o → o.OutputType = "auto" →
      prepare env r buf = .ok (vary, opts, calls) →
      (∀ e, operation buf opts = .error e →
        (imageHandler env r buf operation).headers = [("Vary", "Accept")]) ∧
      (∀ image, operation buf opts = .ok image →
        r.s3Key = "" → r.azureSASToken = "" → r.azureBlobKey = "" →
        ("Vary", "Accept") ∈ (imageHandler env r buf operation).headers) ∧
      (∀ image, operation buf opts = .ok image →
        (r.s3Key ≠ "" ∨ r.azureSASToken ≠ "" ∨ r.azureBlobKey ≠ "") →
        (imageHandler env r buf operation).headers = [])) ∧
    ((∀ o, env.buildParamsFromQuery r.query = .ok o → o.OutputType ≠ "auto") →
      ∀ h ∈ (imageHandler env r buf operation).headers, h.1 ≠ "Vary") := by
  constructor
  · intro o vary opts calls ho hauto hprep
    obtain ⟨o2, ho2, hv⟩ := prepare_ok env r buf vary opts calls hprep
    have ho_eq : o2 = o := by rw [ho] at ho2; injection ho2 with h; exact h.symm
    subst ho_eq
    have hvary : vary = "Accept" := by
      rcases hv with ⟨_, hv⟩ | ⟨hne, _⟩
      · exact hv
      · exact absurd hauto hne
    subst hvary
    refine ⟨?_, ?_, ?_⟩
    · intro e hrun
      rw [imageHandler_of_run_error env r buf operation _ opts calls e hprep hrun]
      simp [varyHeader]
    · intro image hrun h1 h2 h3
      rw [imageHandler_of_run_ok env r buf operation _ opts calls image hprep hrun]
      simp [respond, h1, h2, h3, varyHeader]
    · intro image hrun hdest
      rw [imageHandler_of_run_ok env r buf operation _ opts calls image hprep hrun]
      unfold respond
      by_cases h1 : r.s3Key = ""
      · by_cases h2 : r.azureSASToken = ""
        · have h3 : r.azureBlobKey ≠ "" := by
            rcases hdest with h | h | h
            · exact absurd h1 h
            · exact absurd h2 h
            · exact h
          simp only [h1, h2, h3, ne_eq, not_true_eq_false, not_false_eq_true, and_self,
            if_true, if_false]
          split <;> rfl
        · simp only [h1, h2, ne_eq, not_true_eq_false, not_false_eq_true, false_and,
            if_true, if_false]
          split
          · rfl
          · split <;> rfl
      · simp only [h1, ne_eq, not_false_eq_true, if_true]
        split <;> rfl
  · intro hno h hmem
    unfold imageHandler at hmem
    split at hmem
    · rename_i resp hresp
      rw [(prepare_error env r buf resp hresp).1] at hmem
      cases hmem
    · rename_i vary opts calls hprep
      obtain ⟨o, ho, hv⟩ := prepare_ok env r buf vary opts calls hprep
      have hvary : vary = "" := by
        rcases hv with ⟨hauto, _⟩ | ⟨_, hv⟩
        · exact absurd hauto (hno o ho)
        · exact hv
      subst hvary
      split at hmem
      · simp [varyHeader] at hmem
      · unfold respond at hmem
        repeat' split at hmem
        all_goals simp [varyHeader] at hmem
        all_goals rcases hmem with rfl | rfl <;> simp

/-- Witness of C2: with `type=auto` and a failing transform the response carries
`Vary: Accept`. -/
theorem imageHandler_vary_header_witness :
    (imageHandler demoEnv (autoReq "" "") pngBuf failOp).headers = [("Vary", "Accept")] :=
  ((imageHandler_vary_header demoEnv (autoReq "" "") pngBuf failOp).1
    ⟨"auto", "", [], ""⟩ "Accept" ⟨"webp", "", [], ""⟩ [] (by decide) rfl (by decide)).1
    "unsupported image format" rfl

/-- Counterexample to C3 as stated: a bucket key is present and the transform
succeeds, but the store into the bucket fails; the reply is an error reply, not a bare
200. -/
theorem bucket_route_store_failure :
    okOp pngBuf ⟨"png", "", [], ""⟩ = .ok ⟨pngBuf, "image/png"⟩ ∧
      demoEnv.uploadBufferToS3 pngBuf "out.png" "down" "eu" = some "timeout" ∧
      imageHandler demoEnv (pngReq "in.png" "down" "" "") pngBuf okOp =
        ⟨[], .errorReply (.newError "Error while processing the s3 image: timeout"
            .internalError),
          [Call.uploadBufferToS3 pngBuf "out.png" "down" "eu"]⟩ := by
  decide

/-- C3 (amended): after a successful transform `imageHandler` takes exactly one of
three output routes, decided only by which destination parameters are present. With a
bucket key the body is sent to the bucket store, whatever the Azure parameters; without
a bucket key and with an Azure blob key or SAS token it is sent to the Azure store
(with a SAS token: to the assembled blob URL); in both cases no other store is called,
and the reply is a bare 200 without header or body when the store succeeds and an
error reply when the store (or the URL assembly) fails. Otherwise the body is written
inline, no store is called, `Content-Length` is the body length and `Content-Type` the
result's MIME type. -/
theorem imageHandler_output_route (env : Env) (r : Request) (buf : List UInt8)
    (operation : Operation) (vary : String) (opts : ImageOptions) (calls : List Call)
    (image : Image) (hprep : prepare env r buf = .ok (vary, opts, calls))
    (hrun : operation buf opts = .ok image) :
    (r.s3Key ≠ "" →
      (imageHandler env r buf operation).calls =
          calls ++ [Call.uploadBufferToS3 image.Body r.s3OutputKey r.s3Bucket r.s3Region] ∧
        (env.uploadBufferToS3 image.Body r.s3OutputKey r.s3Bucket r.s3Region = none →
          (imageHandler env r buf operation).headers = [] ∧
            (imageHandler env r buf operation).reply = .writeHeader 200) ∧
        (∀ e, env.uploadBufferToS3 image.Body r.s3OutputKey r.s3Bucket r.s3Region = some e →
          (imageHandler env r buf operation).reply =
            .errorReply (.newError ("Error while processing the s3 image: " ++ e)
              .internalError))) ∧
    (r.s3Key = "" → r.azureSASToken = "" → r.azureBlobKey ≠ "" →
      (imageHandler env r buf operation).calls =
          calls ++ [Call.uploadBufferToAzure image.Body r.azureBlobOutputKey r.azureContainer] ∧
        (env.uploadBufferToAzure image.Body r.azureBlobOutputKey r.azureContainer = none →
          (imageHandler env r buf operation).headers = [] ∧
            (imageHandler env r buf operation).reply = .writeHeader 200) ∧
        (∀ e, env.uploadBufferToAzure image.Body r.azureBlobOutputKey r.azureContainer = some e →
          (imageHandler env r buf operation).reply =
            .errorReply (.newError ("Error while processing the azure image: " ++ e)
              .internalError))) ∧
    (r.s3Key = "" → r.azureSASToken ≠ "" →
      (∀ e, env.assebleBlobURL r.azureSASToken env.azureAccountName r.azureContainer
            r.azureBlobOutputKey = .error e →
          (imageHandler env r buf operation).calls = calls ∧
            (imageHandler env r buf operation).reply =
              .errorReply (.newError ("Error while assembling azure url: " ++ e)
                .internalError)) ∧
        (∀ url, env.assebleBlobURL r.azureSASToken env.azureAccountName r.azureContainer
            r.azureBlobOutputKey = .ok url →
          (imageHandler env r buf operation).calls =
              calls ++ [Call.uploadBufferToAzureSAS image.Body url] ∧
            (env.uploadBufferToAzureSAS image.Body url = none →
              (imageHandler env r buf operation).headers = [] ∧
                (imageHandler env r buf operation).reply = .writeHeader 200) ∧
            (∀ e, env.uploadBufferToAzureSAS image.Body url = some e →
              (imageHandler env r buf operation).reply =
                .errorReply (.newError ("Error while processing the azure sas image: " ++ e)
                  .internalError)))) ∧
    (r.s3Key = "" → r.azureSASToken = "" → r.azureBlobKey = "" →
      (imageHandler env r buf operation).calls = calls ∧
        (imageHandler env r buf operation).reply = .write image.Body ∧
        (imageHandler env r buf operation).headers =
          [("Content-Length", toString image.Body.length), ("Content-Type", image.Mime)]
            ++ varyHeader vary) := by
  rw [imageHandler_of_run_ok env r buf operation vary opts calls image hprep hrun]
  refine ⟨?_, ?_, ?_, ?_⟩
  · intro h1
    unfold respond
    simp only [h1, ne_eq, not_false_eq_true, if_true]
    cases hu : env.uploadBufferToS3 image.Body r.s3OutputKey r.s3Bucket r.s3Region <;> simp
  · intro h1 h2 h3
    unfold respond
    simp only [h1, h2, h3, ne_eq, not_true_eq_false, not_false_eq_true, and_self, if_true,
      if_false]
    cases hu : env.uploadBufferToAzure image.Body r.azureBlobOutputKey r.azureContainer <;>
      simp
  · intro h1 h2
    unfold respond
    simp only [h1, h2, ne_eq, not_true_eq_false, not_false_eq_true, false_and, if_true,
      if_false]
    constructor
    · intro e he
      simp [he]
    · intro url hurl
      simp only [hurl]
      cases hu : env.uploadBufferToAzureSAS image.Body url <;> simp
  · intro h1 h2 h3
    simp [respond, h1, h2, h3]

/-- Witness of C3: with a bucket key and a SAS token both present the body goes to the
bucket store only, and the reply is a bare 200. -/
theorem imageHandler_output_route_witness :
    (imageHandler demoEnv (pngReq "in.png" "pics" "sv=1" "k") pngBuf okOp).calls =
        [Call.uploadBufferToS3 pngBuf "out.png" "pics" "eu"] ∧
      (imageHandler demoEnv (pngReq "in.png" "pics" "sv=1" "k") pngBuf okOp).reply =
        .writeHeader 200 := by
  have h := (imageHandler_output_route demoEnv (pngReq "in.png" "pics" "sv=1" "k") pngBuf okOp
    "" ⟨"png", "", [], ""⟩ [] ⟨pngBuf, "image/png"⟩ (by decide) (by decide)).1 (by decide)
  exact ⟨h.1, (h.2.1 (by decide)).2⟩

/-- Counterexample to C9 as stated: a payload with an XML prolog matches the SVG
signature and has no magic number, but it is sniffed as `text/xml`, so the SVG test is
not applied and the inferred type stays `text/xml`, not `image/svg+xml`. -/
theorem svg_with_xml_prolog_not_reclassified :
    demoEnv.filetypeGet xmlSvgBuf = .ok "" ∧ demoEnv.isSVGImage xmlSvgBuf = true ∧
      8 < xmlSvgBuf.length ∧
      demoEnv.detectContentType xmlSvgBuf = "text/xml; charset=utf-8" ∧
      detectMimeType demoEnv xmlSvgBuf = "text/xml; charset=utf-8" := by
  decide

/-- C9 (amended): the detection steps are applied in order. The sniffed type is kept
unless it is `application/octet-stream`, in which case a non-empty answer of the magic
number table replaces it. The SVG test is applied only when the type so inferred
contains `text/plain` and the payload is longer than 8 bytes: otherwise the inferred
type is final, whatever the SVG test would say. When it is applied and the payload
matches the SVG signature the final type is `image/svg+xml`, and the payload is then
not rejected as unsupported media as long as `image/svg+xml` is a supported type. -/
theorem detectMimeType_steps (env : Env) (buf : List UInt8) :
    (env.detectContentType buf ≠ "application/octet-stream" →
      inferredType env buf = env.detectContentType buf) ∧
    (env.detectContentType buf = "application/octet-stream" →
      ∀ kind, env.filetypeGet buf = .ok kind → kind ≠ "" → inferredType env buf = kind) ∧
    (¬ (strContains (inferredType env buf) "text/plain" = true ∧ 8 < buf.length) →
      detectMimeType env buf = inferredType env buf) ∧
    (strContains (inferredType env buf) "text/plain" = true → 8 < buf.length →
      (env.isSVGImage buf = false → detectMimeType env buf = inferredType env buf) ∧
      (env.isSVGImage buf = true →
        detectMimeType env buf = "image/svg+xml" ∧
        (env.isImageMimeTypeSupported "image/svg+xml" = true →
          ∀ r operation,
            (imageHandler env r buf operation).reply ≠ .errorReply .errUnsupportedMedia))) := by
  refine ⟨?_, ?_, ?_, ?_⟩
  · intro h
    simp [inferredType, h]
  · intro h kind hk hne
    simp [inferredType, h, hk, hne]
  · intro h
    unfold detectMimeType
    by_cases h1 : strContains (inferredType env buf) "text/plain" = true
    · have h2 : ¬ 8 < buf.length := fun h2 => h ⟨h1, h2⟩
      simp [h1, h2]
    · simp [h1]
  · intro h1 h2
    have hsvg : env.isSVGImage buf = true → detectMimeType env buf = "image/svg+xml" := by
      intro h3
      simp [detectMimeType, h1, h2, h3]
    refine ⟨?_, ?_⟩
    · intro h3
      simp [detectMimeType, h1, h2, h3]
    · intro h3
      refine ⟨hsvg h3, ?_⟩
      intro hsup r operation
      apply imageHandler_supported_not_rejected
      rw [hsvg h3]
      exact hsup

/-- Witness of C9: a bare `<svg>` document is sniffed as plain text, is 46 bytes long and matches
the SVG signature, so its final type is `image/svg+xml`. -/
theorem detectMimeType_steps_witness :
    detectMimeType demoEnv svgBuf = "image/svg+xml" :=
  (((detectMimeType_steps demoEnv svgBuf).2.2.2 (by decide) (by decide)).2 (by decide)).1

/-! ## The tile job -/

/-- A text occurs in every text that ends with it. -/
theorem strContains_append_right (a b : String) : strContains (a ++ b) b = true := by
  unfold strContains
  rw [List.any_eq_true]
  refine ⟨b.data, ?_, ?_⟩
  · rw [List.mem_tails, String.data_append]
    exact List.suffix_append _ _
  · simp

/-- A text that starts with the letter `d` is not the text `ok`. -/
theorem append_ne_ok (a rest : String) (h : a.data.head? = some 'd') : a ++ rest ≠ "ok" := by
  intro heq
  have h2 : (a ++ rest).data.head? = some 'o' := by rw [heq]; rfl
  rw [String.data_append] at h2
  cases ha : a.data with
  | nil => rw [ha] at h; cases h
  | cons c cs =>
    rw [ha] at h h2
    simp only [List.head?_cons, List.cons_append, Option.some.injEq] at h h2
    rw [h] at h2
    exact absurd h2 (by decide)

/-- The trace of `UploadDZFiles` once the provider is built and the `pending` marker
is written: the marker write, the job's effects, and the report of its error. -/
theorem UploadDZFiles_launched (w : World) (dzConf : DZFilesConfig) (p : Provider)
    (hprov : initDownloadUploader dzConf = .ok p)
    (hpending : w.uploadImage p "pending" (markerKeyOf dzConf) dzConf.TempContainer = none) :
    UploadDZFiles w dzConf =
      ⟨none, true,
        .upload p "pending" (markerKeyOf dzConf) dzConf.TempContainer none ::
          (jobBody w p dzConf (keyDirOf dzConf) (imageNameOf dzConf)
            (fileExtensionOf dzConf)).2 ++
          reportError w p dzConf (markerKeyOf dzConf)
            (jobBody w p dzConf (keyDirOf dzConf) (imageNameOf dzConf)
              (fileExtensionOf dzConf)).1⟩ := by
  rw [markerKeyOf] at hpending
  simp [UploadDZFiles, hprov, hpending, markerKeyOf]

/-- C6: when the invocation of the tiling tool fails (the job got that far: provider
built, `pending` marker written, staging directory made, image downloaded and saved),
the job overwrites the status marker with an error text that ends with the tool's
failure reason, the only storage writes are the two marker writes (no index or tile
file is uploaded), and the staging directory has been removed when the job exits. -/
theorem tiling_failure_reported (w : World) (dzConf : DZFilesConfig) (p : Provider)
    (data reason : String)
    (hprov : initDownloadUploader dzConf = .ok p)
    (hpending : w.uploadImage p "pending" (markerKeyOf dzConf) dzConf.TempContainer = none)
    (hmkdir : w.mkdir (localDirPathOf w) = none)
    (hdown : w.downloadImage p dzConf.Container dzConf.ImageKey = .ok data)
    (hwrite : w.writeFile
      (localDirPathOf w ++ "/" ++ imageNameOf dzConf ++ fileExtensionOf dzConf) data = none)
    (hvips : w.vipsDzsave
      (localDirPathOf w ++ "/" ++ imageNameOf dzConf ++ fileExtensionOf dzConf)
      (localDirPathOf w ++ "/" ++ imageNameOf dzConf) = some reason) :
    (UploadDZFiles w dzConf).trace =
        [.upload p "pending" (markerKeyOf dzConf) dzConf.TempContainer none,
          .mkdir (localDirPathOf w) none,
          .download p dzConf.Container dzConf.ImageKey none,
          .writeFile (localDirPathOf w ++ "/" ++ imageNameOf dzConf ++ fileExtensionOf dzConf)
            data none,
          .vips (localDirPathOf w ++ "/" ++ imageNameOf dzConf ++ fileExtensionOf dzConf)
            (localDirPathOf w ++ "/" ++ imageNameOf dzConf) (some reason),
          .removeAll (localDirPathOf w),
          .upload p
            ("dzfiles: error generating dz files: " ++
              ("dzfiles: error creating dz files: " ++ reason))
            (markerKeyOf dzConf) dzConf.TempContainer
            (w.uploadImage p
              ("dzfiles: error generating dz files: " ++
                ("dzfiles: error creating dz files: " ++ reason))
              (markerKeyOf dzConf) dzConf.TempContainer),
          .print ("dzfiles: error: " ++
            ("dzfiles: error generating dz files: " ++
              ("dzfiles: error creating dz files: " ++ reason)))] ∧
      strContains
        ("dzfiles: error generating dz files: " ++
          ("dzfiles: error creating dz files: " ++ reason)) reason = true ∧
      (∀ ev ∈ (UploadDZFiles w dzConf).trace, ∀ p2 d k c e, ev = Event.upload p2 d k c e →
        k = markerKeyOf dzConf ∧ c = dzConf.TempContainer) ∧
      (∀ b, dirExistsAfter (localDirPathOf w) b (UploadDZFiles w dzConf).trace = false) := by
  have htrace : (UploadDZFiles w dzConf).trace =
        [.upload p "pending" (markerKeyOf dzConf) dzConf.TempContainer none,
          .mkdir (localDirPathOf w) none,
          .download p dzConf.Container dzConf.ImageKey none,
          .writeFile (localDirPathOf w ++ "/" ++ imageNameOf dzConf ++ fileExtensionOf dzConf)
            data none,
          .vips (localDirPathOf w ++ "/" ++ imageNameOf dzConf ++ fileExtensionOf dzConf)
            (localDirPathOf w ++ "/" ++ imageNameOf dzConf) (some reason),
          .removeAll (localDirPathOf w),
          .upload p
            ("dzfiles: error generating dz files: " ++
              ("dzfiles: error creating dz files: " ++ reason))
            (markerKeyOf dzConf) dzConf.TempContainer
            (w.uploadImage p
              ("dzfiles: error generating dz files: " ++
                ("dzfiles: error creating dz files: " ++ reason))
              (markerKeyOf dzConf) dzConf.TempContainer),
          .print ("dzfiles: error: " ++
            ("dzfiles: error generating dz files: " ++
              ("dzfiles: error creating dz files: " ++ reason)))] := by
    rw [UploadDZFiles_launched w dzConf p hprov hpending]
    simp [jobBody, generateDZFiles, hmkdir, hdown, hwrite, hvips, reportError]
  refine ⟨htrace, ?_, ?_, ?_⟩
  · rw [← String.append_assoc]
    exact strContains_append_right _ _
  · rw [htrace]
    intro ev hev p2 d k c e heq
    subst heq
    simp only [List.mem_cons, Event.upload.injEq, List.mem_singleton, reduceCtorEq,
      false_or, or_false] at hev
    rcases hev with ⟨_, _, h3, h4, _⟩ | ⟨_, _, h3, h4, _⟩ | hnil
    · exact ⟨h3, h4⟩
    · exact ⟨h3, h4⟩
    · cases hnil
  · intro b
    rw [htrace]
    simp [dirExistsAfter]

/-- Witness of C6: in the world where `vips` exits with status 1, the job for
`photo.tiff` writes only to the marker `photo.txt` in `src`, and `/tmp/dzFiles-7` is
gone afterwards. -/
theorem tiling_failure_reported_witness :
    (∀ ev ∈ (UploadDZFiles toolFailsWorld photoConf).trace, ∀ p2 d k c e,
        ev = Event.upload p2 d k c e → k = "photo.txt" ∧ c = "src") ∧
      dirExistsAfter "/tmp/dzFiles-7" true (UploadDZFiles toolFailsWorld photoConf).trace
        = false :=
  have h := tiling_failure_reported toolFailsWorld photoConf .azure "img" "exit status 1"
    (by decide) (by decide) (by decide) (by decide) (by decide) (by decide)
  ⟨h.2.2.1, h.2.2.2 true⟩

/-- A walk that meets no error returns no error. -/
theorem walkLoop_no_error (w : World) (p : Provider) (dzConf : DZFilesConfig)
    (localDirPath keyDir : String) (entries : List WalkEntry)
    (hwalk : ∀ e ∈ entries, e.err = none) :
    (walkLoop w p dzConf localDirPath keyDir entries).1 = none := by
  induction entries with
  | nil => rfl
  | cons e es ih =>
    have he : e.err = none := hwalk e (List.mem_cons_self _ _)
    have ih2 := ih (fun x hx => hwalk x (List.mem_cons_of_mem _ hx))
    unfold walkLoop
    rw [he]
    by_cases hd : e.isDir = true
    · simp [hd, ih2]
    · simp [hd, ih2]

/-- A walk that meets no error launches one task per regular file, in order. -/
theorem walkLoop_tasks (w : World) (p : Provider) (dzConf : DZFilesConfig)
    (localDirPath keyDir : String) (entries : List WalkEntry)
    (hwalk : ∀ e ∈ entries, e.err = none) :
    (walkLoop w p dzConf localDirPath keyDir entries).2 =
      (entries.filter (fun e => !e.isDir)).map
        (fun e => fileTask w p dzConf localDirPath keyDir e.path) := by
  induction entries with
  | nil => rfl
  | cons e es ih =>
    have he : e.err = none := hwalk e (List.mem_cons_self _ _)
    have ih2 := ih (fun x hx => hwalk x (List.mem_cons_of_mem _ hx))
    unfold walkLoop
    rw [he]
    by_cases hd : e.isDir = true
    · simp [hd, ih2]
    · simp [hd, ih2]

/-- The error `errgroup.Wait` returns is the error of one of the failed tasks. -/
theorem groupWait_mem (w : World) (errs : List String) (msg : String)
    (h : groupWait w errs = some msg) : msg ∈ errs := by
  cases errs with
  | nil => simp [groupWait] at h
  | cons e es =>
    simp only [groupWait, Option.some.injEq] at h
    have hlt : w.firstReported (e :: es) % (es.length + 1) < (e :: es).length := by
      simp only [List.length_cons]
      exact Nat.mod_lt _ (Nat.succ_pos _)
    rw [List.getD_eq_getElem _ _ hlt] at h
    rw [← h]
    exact List.getElem_mem _

/-- When some task failed `errgroup.Wait` returns an error. -/
theorem groupWait_some (w : World) (errs : List String) (h : errs ≠ []) :
    ∃ msg, groupWait w errs = some msg := by
  cases errs with
  | nil => exact absurd rfl h
  | cons e es => exact ⟨_, rfl⟩

/-- The error of the index task is never the text `ok`. -/
theorem indexTask_err_ne_ok (w : World) (p : Provider) (dzConf : DZFilesConfig)
    (localDirPath keyDir imageName : String) :
    (indexTask w p dzConf localDirPath keyDir imageName).1 ≠ some "ok" := by
  unfold indexTask
  dsimp only
  split
  · intro h
    injection h with h
    exact append_ne_ok _ _ (by decide) h
  · split
    · intro h
      injection h with h
      exact append_ne_ok _ _ (by decide) h
    · intro h; cases h

/-- The error of a tile file task is never the text `ok`. -/
theorem fileTask_err_ne_ok (w : World) (p : Provider) (dzConf : DZFilesConfig)
    (localDirPath keyDir path : String) :
    (fileTask w p dzConf localDirPath keyDir path).1 ≠ some "ok" := by
  unfold fileTask
  split
  · intro h
    injection h with h
    rw [String.append_assoc, String.append_assoc] at h
    exact append_ne_ok _ _ (by decide) h
  · dsimp only
    split
    · intro h
      injection h with h
      rw [String.append_assoc, String.append_assoc] at h
      exact append_ne_ok _ _ (by decide) h
    · intro h; cases h

/-- No task of the fan-out fails with the text `ok`. -/
theorem uploadTasks_err_ne_ok (w : World) (p : Provider) (dzConf : DZFilesConfig) :
    ∀ t ∈ uploadTasks w p dzConf, t.1 ≠ some "ok" := by
  intro t ht
  unfold uploadTasks at ht
  rcases List.mem_cons.1 ht with rfl | ht
  · exact indexTask_err_ne_ok _ _ _ _ _ _
  · rw [List.mem_map] at ht
    obtain ⟨e, _, rfl⟩ := ht
    exact fileTask_err_ne_ok _ _ _ _ _ _

/-- The upload phase after a walk that met no error: the tasks are those of
`uploadTasks`, and the outcome is decided by `errgroup.Wait` on their errors. -/
theorem uploadPhase_of_walk_ok (w : World) (p : Provider) (dzConf : DZFilesConfig)
    (hwalk : ∀ e ∈ w.walk (filepathJoin (localDirPathOf w) (imageNameOf dzConf ++ "_files")),
      e.err = none) :
    uploadPhase w p dzConf (localDirPathOf w) (keyDirOf dzConf) (imageNameOf dzConf) =
      match groupWait w ((uploadTasks w p dzConf).filterMap Prod.fst) with
      | some e => (some e, ((uploadTasks w p dzConf).map Prod.snd).flatten)
      | none =>
        match w.uploadImage p "ok" (markerKeyOf dzConf) dzConf.TempContainer with
        | some e =>
          (some ("dzfiles: error creating ok txt file: " ++ e),
            ((uploadTasks w p dzConf).map Prod.snd).flatten ++
              [.upload p "ok" (markerKeyOf dzConf) dzConf.TempContainer (some e)])
        | none =>
          (none, ((uploadTasks w p dzConf).map Prod.snd).flatten ++
            [.upload p "ok" (markerKeyOf dzConf) dzConf.TempContainer none,
              .print ("DZfiles upload for: " ++
                filepathJoin (keyDirOf dzConf) (imageNameOf dzConf) ++ "\n")]) := by
  unfold uploadPhase
  simp only [walkLoop_no_error w p dzConf _ _ _ hwalk, walkLoop_tasks w p dzConf _ _ _ hwalk]
  rfl

/-- Counterexample to C5 as stated: the upload task of the tile file fails
(`connection reset`) and the walk then meets an error; the job returns the walk error
without consulting the task group, so the marker `photo.txt` is overwritten with the
walk error, not with the failed task's message. -/
theorem upload_failure_hidden_by_walk_error :
    (fileTask walkBreaksWorld .azure photoConf "/tmp/dzFiles-7" ""
        "/tmp/dzFiles-7/photo_files/0/0_0.jpeg").1 =
      some "dzfiles: error uploading file: /tmp/dzFiles-7/photo_files/0/0_0.jpeg: connection reset" ∧
    (UploadDZFiles walkBreaksWorld photoConf).trace =
      [.upload .azure "pending" "photo.txt" "src" none,
        .mkdir "/tmp/dzFiles-7" none,
        .download .azure "src" "photo.tiff" none,
        .writeFile "/tmp/dzFiles-7/photo.tiff" "img" none,
        .vips "/tmp/dzFiles-7/photo.tiff" "/tmp/dzFiles-7/photo" none,
        .readFile "/tmp/dzFiles-7/photo.dzi" none,
        .upload .azure "data" "photo.dzi" "src" none,
        .readFile "/tmp/dzFiles-7/photo_files/0/0_0.jpeg" none,
        .upload .azure "data" "photo_files/0/0_0.jpeg" "src" (some "connection reset"),
        .removeAll "/tmp/dzFiles-7",
        .upload .azure "dzfiles: error walking dir path: permission denied"
          "photo.txt" "src" none,
        .print "dzfiles: error: dzfiles: error walking dir path: permission denied"] := by
  decide

/-- C5 (amended): in a tile job whose walk of the tile tree met no error, so that all N
upload tasks (the index task and one task per tile file) were launched and waited
for, if at least one task fails then the `ok` marker write is not made: after the
tasks' own effects the job only removes the staging directory and overwrites the
marker with the error message of a failed task (the one `errgroup.Wait` reports, which
is the failed task's when exactly one failed), a message that is not `ok`. Every task
was run, so the uploads of the successful tasks were made, and nothing is done to them
afterwards. (Equivalently: `ok` is written only when every upload task succeeded.) -/
theorem upload_failure_reported (w : World) (dzConf : DZFilesConfig) (p : Provider)
    (data : String)
    (hprov : initDownloadUploader dzConf = .ok p)
    (hpending : w.uploadImage p "pending" (markerKeyOf dzConf) dzConf.TempContainer = none)
    (hmkdir : w.mkdir (localDirPathOf w) = none)
    (hdown : w.downloadImage p dzConf.Container dzConf.ImageKey = .ok data)
    (hgen : (generateDZFiles w (localDirPathOf w) data (imageNameOf dzConf)
      (fileExtensionOf dzConf)).1 = none)
    (hwalk : ∀ e ∈ w.walk (filepathJoin (localDirPathOf w) (imageNameOf dzConf ++ "_files")),
      e.err = none)
    (hfail : ∃ t ∈ uploadTasks w p dzConf, t.1 ≠ none) :
    ∃ msg, some msg ∈ (uploadTasks w p dzConf).map Prod.fst ∧ msg ≠ "ok" ∧
      (∀ t ∈ uploadTasks w p dzConf, t.1 ≠ none →
        (∀ u ∈ uploadTasks w p dzConf, u.1 ≠ none → u = t) → t.1 = some msg) ∧
      (UploadDZFiles w dzConf).trace =
        .upload p "pending" (markerKeyOf dzConf) dzConf.TempContainer none ::
          ([.mkdir (localDirPathOf w) none,
              .download p dzConf.Container dzConf.ImageKey none] ++
            (generateDZFiles w (localDirPathOf w) data (imageNameOf dzConf)
              (fileExtensionOf dzConf)).2 ++
            ((uploadTasks w p dzConf).map Prod.snd).flatten ++
            [.removeAll (localDirPathOf w),
              .upload p msg (markerKeyOf dzConf) dzConf.TempContainer
                (w.uploadImage p msg (markerKeyOf dzConf) dzConf.TempContainer),
              .print ("dzfiles: error: " ++ msg)]) ∧
      (∀ t ∈ uploadTasks w p dzConf, ∀ ev ∈ t.2, ev ∈ (UploadDZFiles w dzConf).trace) := by
  obtain ⟨t, ht, hterr⟩ := hfail
  have hne : (uploadTasks w p dzConf).filterMap Prod.fst ≠ [] := by
    cases hm : t.1 with
    | none => exact absurd hm hterr
    | some m =>
      intro hnil
      have hmem : m ∈ (uploadTasks w p dzConf).filterMap Prod.fst :=
        List.mem_filterMap.2 ⟨t, ht, hm⟩
      rw [hnil] at hmem
      cases hmem
  obtain ⟨msg, hmsg⟩ := groupWait_some w _ hne
  have hmem := groupWait_mem w _ msg hmsg
  obtain ⟨u, hu, hu1⟩ := List.mem_filterMap.1 hmem
  have htrace : (UploadDZFiles w dzConf).trace =
        .upload p "pending" (markerKeyOf dzConf) dzConf.TempContainer none ::
          ([.mkdir (localDirPathOf w) none,
              .download p dzConf.Container dzConf.ImageKey none] ++
            (generateDZFiles w (localDirPathOf w) data (imageNameOf dzConf)
              (fileExtensionOf dzConf)).2 ++
            ((uploadTasks w p dzConf).map Prod.snd).flatten ++
            [.removeAll (localDirPathOf w),
              .upload p msg (markerKeyOf dzConf) dzConf.TempContainer
                (w.uploadImage p msg (markerKeyOf dzConf) dzConf.TempContainer),
              .print ("dzfiles: error: " ++ msg)]) := by
    rw [UploadDZFiles_launched w dzConf p hprov hpending]
    simp only [jobBody, hmkdir, hdown, hgen, uploadPhase_of_walk_ok w p dzConf hwalk, hmsg,
      reportError]
    simp
  refine ⟨msg, ?_, ?_, ?_, htrace, ?_⟩
  · exact List.mem_map.2 ⟨u, hu, hu1⟩
  · intro hok
    rw [hok] at hu1
    exact uploadTasks_err_ne_ok w p dzConf u hu hu1
  · intro t2 ht2 _ honly
    have hune : u.1 ≠ none := by rw [hu1]; simp
    rw [← honly u hu hune]
    exact hu1
  · intro t2 ht2 ev hev
    rw [htrace]
    apply List.mem_cons_of_mem
    apply List.mem_append_left
    apply List.mem_append_right
    exact List.mem_flatten.2 ⟨t2.2, List.mem_map.2 ⟨t2, ht2, rfl⟩, hev⟩

/-- Witness of C5: in the world where the upload of the one tile file fails, the job
for `photo.tiff` reports that task's error, although the index file was uploaded. -/
theorem upload_failure_reported_witness :
    ∃ msg, some msg ∈ (uploadTasks tileUploadFailsWorld .azure photoConf).map Prod.fst ∧
      msg ≠ "ok" := by
  obtain ⟨msg, h1, h2, _⟩ :=
    upload_failure_reported tileUploadFailsWorld photoConf .azure "img"
      (by decide) (by decide) (by decide) (by decide) (by decide) (by decide)
      ⟨(some "dzfiles: error uploading file: /tmp/dzFiles-7/photo_files/0/0_0.jpeg: connection reset",
        [.readFile "/tmp/dzFiles-7/photo_files/0/0_0.jpeg" none,
          .upload .azure "data" "photo_files/0/0_0.jpeg" "src" (some "connection reset")]),
        by decide, by decide⟩
  exact ⟨msg, h1, h2⟩

/-- The errors of tasks that all succeeded. -/
theorem filterMap_fst_nil (tasks : List (Option String × List Event))
    (h : ∀ t ∈ tasks, t.1 = none) : tasks.filterMap Prod.fst = [] := by
  induction tasks with
  | nil => rfl
  | cons t ts ih =>
    have h1 : t.1 = none := h t (List.mem_cons_self _ _)
    rw [List.filterMap_cons, h1]
    exact ih (fun x hx => h x (List.mem_cons_of_mem _ hx))

/-- Counterexample to C4 as stated: every storage call and the tiling invocation
succeed and `tempContainer` is unset, but the walk of the tile directory fails; the
last write to the marker `photo.txt` is an error text, not `ok`. -/
theorem tile_job_walk_failure :
    (DZSave walkFailsWorld photoBody "POST" (.ok "")).trace =
      [.upload .azure "pending" "photo.txt" "src" none,
        .mkdir "/tmp/dzFiles-7" none,
        .download .azure "src" "photo.tiff" none,
        .writeFile "/tmp/dzFiles-7/photo.tiff" "img" none,
        .vips "/tmp/dzFiles-7/photo.tiff" "/tmp/dzFiles-7/photo" none,
        .readFile "/tmp/dzFiles-7/photo.dzi" none,
        .upload .azure "data" "photo.dzi" "src" none,
        .removeAll "/tmp/dzFiles-7",
        .upload .azure "dzfiles: error walking dir path: no such file or directory"
          "photo.txt" "src" none,
        .print "dzfiles: error: dzfiles: error walking dir path: no such file or directory"] := by
  decide

/-- C4 (amended): for a tile job with `tempContainer` unset whose every storage call,
tiling invocation and local staging step succeeds (the staging directory is made, the
walk of the tile tree meets no error, the index file and every tile file are read),
the first effect is the write of `pending` to the marker key `<dir>/<baseName>.txt` in
the source container (so before any download), the index file and every regular file
the walk visits are uploaded to that container, and the last storage write is `ok` to
the marker key; `DZSave` replies without an error. -/
theorem tile_job_success (w : World) (jsonUnmarshal : String → Except String DZRequest)
    (data : String) (req : DZRequest) (p : Provider) (img : String)
    (hbody : jsonUnmarshal data = .ok req)
    (htemp : req.TempContainer = "")
    (hprov : initDownloadUploader (dzConfigOf req) = .ok p)
    (hstore : ∀ d k, w.uploadImage p d k req.Container = none)
    (hdown : w.downloadImage p req.Container req.ImageKey = .ok img)
    (hmkdir : w.mkdir (localDirPathOf w) = none)
    (hwrite : ∀ path d, w.writeFile path d = none)
    (hvips : ∀ input output, w.vipsDzsave input output = none)
    (hreadIndex : ∃ d, w.readFile
      (filepathJoin (localDirPathOf w) (imageNameOf (dzConfigOf req) ++ ".dzi")) = .ok d)
    (hwalk : ∀ e ∈ w.walk
      (filepathJoin (localDirPathOf w) (imageNameOf (dzConfigOf req) ++ "_files")),
      e.err = none)
    (hreadTiles : ∀ e ∈ w.walk
      (filepathJoin (localDirPathOf w) (imageNameOf (dzConfigOf req) ++ "_files")),
      e.isDir = false → ∃ d, w.readFile e.path = .ok d) :
    (DZSave w jsonUnmarshal "POST" (.ok data)).reply = .nothing ∧
    ∃ mid, (DZSave w jsonUnmarshal "POST" (.ok data)).trace =
        .upload p "pending" (markerKeyOf (dzConfigOf req)) req.Container none ::
          (mid ++
            [.upload p "ok" (markerKeyOf (dzConfigOf req)) req.Container none,
              .print ("DZfiles upload for: " ++
                filepathJoin (keyDirOf (dzConfigOf req)) (imageNameOf (dzConfigOf req))
                ++ "\n"),
              .removeAll (localDirPathOf w)]) ∧
      Event.download p req.Container req.ImageKey none ∈ mid ∧
      (∀ d, w.readFile
          (filepathJoin (localDirPathOf w) (imageNameOf (dzConfigOf req) ++ ".dzi")) = .ok d →
        Event.upload p d (indexKeyOf (dzConfigOf req)) req.Container none ∈ mid) ∧
      (∀ e ∈ w.walk
          (filepathJoin (localDirPathOf w) (imageNameOf (dzConfigOf req) ++ "_files")),
        e.isDir = false → ∀ d, w.readFile e.path = .ok d →
        Event.upload p d (tileKeyOf w (dzConfigOf req) e.path) req.Container none ∈ mid) := by
  have htc : (dzConfigOf req).TempContainer = req.Container := by simp [dzConfigOf, htemp]
  have hcont : (dzConfigOf req).Container = req.Container := rfl
  have hkey : (dzConfigOf req).ImageKey = req.ImageKey := rfl
  have hpending : w.uploadImage p "pending" (markerKeyOf (dzConfigOf req))
      (dzConfigOf req).TempContainer = none := by rw [htc]; exact hstore _ _
  have hgen : generateDZFiles w (localDirPathOf w) img (imageNameOf (dzConfigOf req))
      (fileExtensionOf (dzConfigOf req)) =
      (none,
        [.writeFile (localDirPathOf w ++ "/" ++ imageNameOf (dzConfigOf req) ++
            fileExtensionOf (dzConfigOf req)) img none,
          .vips (localDirPathOf w ++ "/" ++ imageNameOf (dzConfigOf req) ++
            fileExtensionOf (dzConfigOf req))
            (localDirPathOf w ++ "/" ++ imageNameOf (dzConfigOf req)) none]) := by
    simp [generateDZFiles, hwrite, hvips]
  have hindex : ∀ d, w.readFile
      (filepathJoin (localDirPathOf w) (imageNameOf (dzConfigOf req) ++ ".dzi")) = .ok d →
      indexTask w p (dzConfigOf req) (localDirPathOf w) (keyDirOf (dzConfigOf req))
        (imageNameOf (dzConfigOf req)) =
      (none,
        [.readFile (filepathJoin (localDirPathOf w) (imageNameOf (dzConfigOf req) ++ ".dzi"))
            none,
          .upload p d (indexKeyOf (dzConfigOf req)) req.Container none]) := by
    intro d hd
    simp [indexTask, hd, htc, hstore, indexKeyOf]
  have hfile : ∀ path d, w.readFile path = .ok d →
      fileTask w p (dzConfigOf req) (localDirPathOf w) (keyDirOf (dzConfigOf req)) path =
      (none,
        [.readFile path none,
          .upload p d (tileKeyOf w (dzConfigOf req) path) req.Container none]) := by
    intro path d hd
    simp [fileTask, hd, htc, hstore, tileKeyOf]
  have hall : ∀ t ∈ uploadTasks w p (dzConfigOf req), t.1 = none := by
    intro t ht
    unfold uploadTasks at ht
    rcases List.mem_cons.1 ht with rfl | ht
    · obtain ⟨d, hd⟩ := hreadIndex
      rw [hindex d hd]
    · rw [List.mem_map] at ht
      obtain ⟨e, he, rfl⟩ := ht
      rw [List.mem_filter] at he
      obtain ⟨d, hd⟩ := hreadTiles e he.1 (by simpa using he.2)
      rw [hfile e.path d hd]
  have hwait : groupWait w ((uploadTasks w p (dzConfigOf req)).filterMap Prod.fst) = none := by
    rw [filterMap_fst_nil _ hall]
    rfl
  have hok : w.uploadImage p "ok" (markerKeyOf (dzConfigOf req)) req.Container = none :=
    hstore _ _
  have hup := UploadDZFiles_launched w (dzConfigOf req) p hprov hpending
  have hjob : jobBody w p (dzConfigOf req) (keyDirOf (dzConfigOf req))
      (imageNameOf (dzConfigOf req)) (fileExtensionOf (dzConfigOf req)) =
      (none,
        [.mkdir (localDirPathOf w) none, .download p req.Container req.ImageKey none] ++
          [.writeFile (localDirPathOf w ++ "/" ++ imageNameOf (dzConfigOf req) ++
              fileExtensionOf (dzConfigOf req)) img none,
            .vips (localDirPathOf w ++ "/" ++ imageNameOf (dzConfigOf req) ++
              fileExtensionOf (dzConfigOf req))
              (localDirPathOf w ++ "/" ++ imageNameOf (dzConfigOf req)) none] ++
          (((uploadTasks w p (dzConfigOf req)).map Prod.snd).flatten ++
            [.upload p "ok" (markerKeyOf (dzConfigOf req)) req.Container none,
              .print ("DZfiles upload for: " ++
                filepathJoin (keyDirOf (dzConfigOf req)) (imageNameOf (dzConfigOf req))
                ++ "\n")]) ++
          [.removeAll (localDirPathOf w)]) := by
    simp only [jobBody, hmkdir, hcont, hkey, hdown, hgen,
      uploadPhase_of_walk_ok w p (dzConfigOf req) hwalk, hwait, hok, htc]
  rw [hjob] at hup
  have hreply : (DZSave w jsonUnmarshal "POST" (.ok data)).reply = .nothing := by
    simp [DZSave, hbody, hup]
  have htrace : (DZSave w jsonUnmarshal "POST" (.ok data)).trace =
      (UploadDZFiles w (dzConfigOf req)).trace := by
    simp [DZSave, hbody, hup]
  refine ⟨hreply, [.mkdir (localDirPathOf w) none, .download p req.Container req.ImageKey none,
      .writeFile (localDirPathOf w ++ "/" ++ imageNameOf (dzConfigOf req) ++
        fileExtensionOf (dzConfigOf req)) img none,
      .vips (localDirPathOf w ++ "/" ++ imageNameOf (dzConfigOf req) ++
        fileExtensionOf (dzConfigOf req))
        (localDirPathOf w ++ "/" ++ imageNameOf (dzConfigOf req)) none] ++
      ((uploadTasks w p (dzConfigOf req)).map Prod.snd).flatten, ?_, ?_, ?_, ?_⟩
  · rw [htrace, hup]
    simp [reportError, htc]
  · simp
  · intro d hd
    apply List.mem_append_right
    refine List.mem_flatten.2 ⟨_, List.mem_map.2 ⟨_, List.mem_cons_self _ _, rfl⟩, ?_⟩
    rw [hindex d hd]
    simp
  · intro e he hdir d hd
    apply List.mem_append_right
    have hmem : fileTask w p (dzConfigOf req) (localDirPathOf w) (keyDirOf (dzConfigOf req))
        e.path ∈ uploadTasks w p (dzConfigOf req) := by
      unfold uploadTasks
      apply List.mem_cons_of_mem
      exact List.mem_map.2 ⟨e, List.mem_filter.2 ⟨he, by simp [hdir]⟩, rfl⟩
    refine List.mem_flatten.2 ⟨_, List.mem_map.2 ⟨_, hmem, rfl⟩, ?_⟩
    rw [hfile e.path d hd]
    simp

/-- Witness of C4: the job for `photo.tiff` in container `src`, `tempContainer` unset,
in the world where nothing fails: the marker `photo.txt` in `src` is written `pending`
first and `ok` last, and `photo.dzi` and the tile file are uploaded to `src` in
between. -/
theorem tile_job_success_witness :
    ∃ mid, (DZSave calmWorld photoBody "POST" (.ok "")).trace =
        .upload .azure "pending" "photo.txt" "src" none ::
          (mid ++
            [.upload .azure "ok" "photo.txt" "src" none,
              .print "DZfiles upload for: photo\n",
              .removeAll "/tmp/dzFiles-7"]) ∧
      Event.upload .azure "data" "photo.dzi" "src" none ∈ mid ∧
      Event.upload .azure "data" "photo_files/0/0_0.jpeg" "src" none ∈ mid := by
  obtain ⟨_, mid, h1, _, h2, h3⟩ :=
    tile_job_success calmWorld photoBody "" ⟨"", "photo.tiff", "src", "", "", "", ""⟩ .azure
      "img" rfl rfl (by decide) (fun _ _ => rfl) rfl (by decide) (fun _ _ => rfl)
      (fun _ _ => rfl) ⟨"data", rfl⟩ (by decide) (fun _ _ _ => ⟨"data", rfl⟩)
  exact ⟨mid, h1, h2 "data" rfl,
    h3 ⟨"/tmp/dzFiles-7/photo_files/0/0_0.jpeg", false, none⟩ (by decide) rfl "data" rfl⟩

/-- C10 at the image key `a//photo.tiff`: the marker and the index file go to
`a/photo.txt` and `a/photo.dzi`, whose directory prefix `a/` is the cleaned one, while
the tile file goes to `a//photo_files/0/0_0.jpeg` under the key's own prefix `a//`.
The keys do not share one directory prefix. -/
theorem unclean_prefix_keys_diverge :
    keyDirOf ⟨"s3", "a//photo.tiff", "src", "src", "eu", "", ""⟩ = "a//" ∧
    (UploadDZFiles calmWorld ⟨"s3", "a//photo.tiff", "src", "src", "eu", "", ""⟩).trace =
      [.upload (.s3 "eu") "pending" "a/photo.txt" "src" none,
        .mkdir "/tmp/dzFiles-7" none,
        .download (.s3 "eu") "src" "a//photo.tiff" none,
        .writeFile "/tmp/dzFiles-7/photo.tiff" "img" none,
        .vips "/tmp/dzFiles-7/photo.tiff" "/tmp/dzFiles-7/photo" none,
        .readFile "/tmp/dzFiles-7/photo.dzi" none,
        .upload (.s3 "eu") "data" "a/photo.dzi" "src" none,
        .readFile "/tmp/dzFiles-7/photo_files/0/0_0.jpeg" none,
        .upload (.s3 "eu") "data" "a//photo_files/0/0_0.jpeg" "src" none,
        .upload (.s3 "eu") "ok" "a/photo.txt" "src" none,
        .print "DZfiles upload for: a/photo\n",
        .removeAll "/tmp/dzFiles-7"] := by
  decide

end Imaginary
